import Mathlib

/-!
Verification development for the Salesforce metadata relationship extraction
engine (`metadata_converter.py`, `analyze_relationships.py`,
`comprehensive_metadata_parser.py`, `enhanced_metadata_parser.py`).

The Python code recovers dependencies from raw source text with `re` patterns.
We embed a small backtracking regular-expression matcher whose abstract syntax
mirrors the exact patterns appearing in the source, with Python `re` semantics:
leftmost match, greedy/lazy repetition, word boundaries, `IGNORECASE` and
`DOTALL` flags, non-overlapping `findall` scanning and group capture.
-/

/-- Single-quote character (codepoint 39), kept out of literals. -/
def squote : Char := Char.ofNat 39

/-- Double-quote character (codepoint 34), kept out of literals. -/
def dquote : Char := Char.ofNat 34

/-- Python word character: `[a-zA-Z0-9_]` (ASCII inputs only). -/
def isWordChar (c : Char) : Bool :=
  (decide ('a' ≤ c ∧ c ≤ 'z')) || (decide ('A' ≤ c ∧ c ≤ 'Z')) ||
  (decide ('0' ≤ c ∧ c ≤ '9')) || (c = '_')

/-- Regular-expression abstract syntax covering every construct used by the
patterns in `metadata_converter.py`. -/
inductive RE where
  | eps
  | chr (c : Char)
  | cls (neg : Bool) (ranges : List (Char × Char))
  | anyc
  | seq (a b : RE)
  | alt (a b : RE)
  | star (r : RE) (lazy : Bool)
  | group (n : Nat) (r : RE)
  | wordB
deriving Repr

/-- Does character `c` fall in one of the ranges (Python character class)? -/
def inRanges (ranges : List (Char × Char)) (c : Char) : Bool :=
  ranges.any (fun p => decide (p.1 ≤ c) && decide (c ≤ p.2))

/-- Character-class test, honouring `re.IGNORECASE` (a cased character matches
if either of its case variants falls in the class). -/
def clsMatch (ic : Bool) (neg : Bool) (ranges : List (Char × Char)) (c : Char) : Bool :=
  let m := inRanges ranges c ||
    (ic && (inRanges ranges c.toLower || inRanges ranges c.toUpper))
  if neg then !m else m

/-- Literal-character test, honouring `re.IGNORECASE`. -/
def chrMatch (ic : Bool) (pat c : Char) : Bool :=
  if ic then pat.toLower = c.toLower else pat = c

/-- Group captures: group index paired with the captured characters. -/
abbrev Caps := List (Nat × List Char)

/-- Record (or overwrite) the capture of group `n`. -/
def setCap (caps : Caps) (n : Nat) (v : List Char) : Caps :=
  (n, v) :: caps.filter (fun p => p.1 ≠ n)

/-- Look up the capture of group `n`. -/
def getCap (caps : Caps) (n : Nat) : Option (List Char) :=
  (caps.find? (fun p => p.1 = n)).map (·.2)

/-- Backtracking matcher.  `mrun ic dotall fuel r prev s caps` returns every
way `r` can match a prefix of `s`, in backtracking-preference order (Python
takes the first), as `(last consumed char, rest of input, captures)`.
`prev` is the character immediately before `s` (for word boundaries);
`fuel` bounds star iterations (callers pass `s.length + 1`, enough because
every starred body in the embedded patterns consumes at least one character,
and the matcher additionally insists on progress inside a star). -/
def mrun (ic dotall : Bool) : Nat → RE → Option Char → List Char → Caps →
    List (Option Char × List Char × Caps)
  | 0, _, _, _, _ => []
  | fuel + 1, re, prev, s, caps =>
    match re with
    | .eps => [(prev, s, caps)]
    | .chr c =>
      match s with
      | [] => []
      | x :: xs => if chrMatch ic c x then [(some x, xs, caps)] else []
    | .cls neg ranges =>
      match s with
      | [] => []
      | x :: xs => if clsMatch ic neg ranges x then [(some x, xs, caps)] else []
    | .anyc =>
      match s with
      | [] => []
      | x :: xs => if dotall || x ≠ '\n' then [(some x, xs, caps)] else []
    | .seq a b =>
      (mrun ic dotall fuel a prev s caps).flatMap
        (fun pr => mrun ic dotall fuel b pr.1 pr.2.1 pr.2.2)
    | .alt a b =>
      mrun ic dotall fuel a prev s caps ++ mrun ic dotall fuel b prev s caps
    | .star r lazy =>
      let stop := [(prev, s, caps)]
      let go :=
        (mrun ic dotall fuel r prev s caps).flatMap
          (fun pr =>
            if pr.2.1.length < s.length then
              mrun ic dotall fuel (.star r lazy) pr.1 pr.2.1 pr.2.2
            else [])
      if lazy then stop ++ go else go ++ stop
    | .group n r =>
      (mrun ic dotall fuel r prev s caps).map
        (fun pr => (pr.1, pr.2.1, setCap pr.2.2 n (s.take (s.length - pr.2.1.length))))
    | .wordB =>
      let before := match prev with | some c => isWordChar c | none => false
      let after := match s with | x :: _ => isWordChar x | [] => false
      if before ≠ after then [(prev, s, caps)] else []

/-- Structural size of a pattern. -/
def RE.size : RE → Nat
  | .eps => 1
  | .chr _ => 1
  | .cls _ _ => 1
  | .anyc => 1
  | .seq a b => a.size + b.size + 1
  | .alt a b => a.size + b.size + 1
  | .star r _ => r.size + 1
  | .group _ r => r.size + 1
  | .wordB => 1

/-- A fuel amount sufficient for `mrun` on the embedded patterns (fuel drops
by one per recursion step; the recursion depth of a backtracking walk is
bounded by the pattern size times the number of star iterations, and every
starred body of the embedded patterns consumes at least one character). -/
def fuelFor (r : RE) (s : List Char) : Nat :=
  (r.size + 2) * (s.length + 2)

/-- One match as reported by `re`: the full matched text plus group captures. -/
structure RMatch where
  whole : List Char
  caps : Caps
deriving Repr

/-- Try to match `r` at the very start of `s`; Python keeps the first
backtracking success. -/
def matchHere (ic dotall : Bool) (r : RE) (prev : Option Char) (s : List Char) :
    Option (RMatch × Option Char × List Char) :=
  match mrun ic dotall (fuelFor r s) r prev s [] with
  | [] => none
  | pr :: _ =>
    some (⟨s.take (s.length - pr.2.1.length), pr.2.2⟩, pr.1, pr.2.1)

/-- Non-overlapping left-to-right scan underlying `re.findall` (the fuel is
one more than the scan length, enough since every step drops a character). -/
def scanAll (ic dotall : Bool) (r : RE) : Nat → Option Char → List Char → List RMatch
  | 0, _, _ => []
  | fuel + 1, prev, s =>
    match matchHere ic dotall r prev s with
    | some (m, lastc, rest) =>
      if rest.length < s.length then
        m :: scanAll ic dotall r fuel lastc rest
      else
        -- empty overall match: advance one character (never hit by our patterns)
        match s with
        | [] => [m]
        | c :: tl => m :: scanAll ic dotall r fuel (some c) tl
    | none =>
      match s with
      | [] => []
      | c :: tl => scanAll ic dotall r fuel (some c) tl

/-- Model of `re.findall(pattern, s)` returning raw matches with captures. -/
def reFindAll (ic dotall : Bool) (r : RE) (s : List Char) : List RMatch :=
  scanAll ic dotall r (s.length + 1) none s

/-- Model of `re.search(pattern, s)`: first match scanning left to right. -/
def reSearch (ic dotall : Bool) (r : RE) : Nat → Option Char → List Char →
    Option RMatch
  | 0, _, _ => none
  | fuel + 1, prev, s =>
    match matchHere ic dotall r prev s with
    | some (m, _, _) => some m
    | none =>
      match s with
      | [] => none
      | c :: tl => reSearch ic dotall r fuel (some c) tl

/-- Group `n` of a match as a `String` (empty if the group did not take part). -/
def RMatch.grp (m : RMatch) (n : Nat) : String :=
  String.mk ((getCap m.caps n).getD [])

/-- Sequence a list of regex pieces. -/
def rcat (l : List RE) : RE := l.foldr RE.seq RE.eps

/-- Literal string piece. -/
def rlit (s : String) : RE := rcat (s.toList.map RE.chr)

/-- Model of `r+` (greedy). -/
def rplus (r : RE) : RE := .seq r (.star r false)

/-- Model of `r?` (greedy). -/
def ropt (r : RE) : RE := .alt r .eps

/-- Model of `[A-Z]` -/
def rAZ : RE := .cls false [('A', 'Z')]

/-- Model of `[a-zA-Z0-9_]`, also Python `\w` over ASCII input. -/
def rword : RE := .cls false [('a', 'z'), ('A', 'Z'), ('0', '9'), ('_', '_')]

/-- Model of `[a-z]` -/
def raz : RE := .cls false [('a', 'z')]

/-- Python `\s`: space, tab, newline, carriage return, vertical tab, form feed. -/
def rws : RE := .cls false
  [(' ', ' '), ('\t', '\t'), ('\n', '\n'), ('\r', '\r'),
   (Char.ofNat 11, Char.ofNat 11), (Char.ofNat 12, Char.ofNat 12)]

/-- Model of `\s*` -/
def rws0 : RE := .star rws false

/-- Model of `\s+` -/
def rws1 : RE := rplus rws

/-- A quote character class containing both the single and the double quote. -/
def rquote : RE := .cls false [(squote, squote), (dquote, dquote)]

/-! ## The exact patterns of `extract_comprehensive_dependencies`

Each definition below encodes one regex literal from
`metadata_converter.py`, in source order. -/

/-- Model of `[A-Z][a-zA-Z0-9_]*(?:__c)?` — object-style identifier. -/
def objIdent : RE := rcat [rAZ, .star rword false, ropt (rlit "__c")]

/-- Model of `[A-Z][a-zA-Z0-9_]+` — class-style identifier. -/
def clsIdent : RE := rcat [rAZ, rplus rword]

/-- Model of `\[SELECT\s+(.*?)\s+FROM\s+([A-Z][a-zA-Z0-9_]*(?:__c)?)\b` -/
def soqlPat1 : RE := rcat
  [.chr '[', rlit "SELECT", rws1, .group 1 (.star .anyc true), rws1,
   rlit "FROM", rws1, .group 2 objIdent, .wordB]

/-- Model of `Database\.query\s*\(\s*['"]SELECT\s+(.*?)\s+FROM\s+(obj)\b` -/
def soqlPat2 : RE := rcat
  [rlit "Database.query", rws0, .chr '(', rws0, rquote, rlit "SELECT", rws1,
   .group 1 (.star .anyc true), rws1, rlit "FROM", rws1, .group 2 objIdent, .wordB]

/-- Model of `Database\.getQueryLocator\s*\(\s*['"]SELECT\s+(.*?)\s+FROM\s+(obj)\b` -/
def soqlPat3 : RE := rcat
  [rlit "Database.getQueryLocator", rws0, .chr '(', rws0, rquote, rlit "SELECT", rws1,
   .group 1 (.star .anyc true), rws1, rlit "FROM", rws1, .group 2 objIdent, .wordB]

/-- Model of `\bFROM\s+([A-Z][a-zA-Z0-9_]*(?:__c)?)\b` -/
def soqlPat4 : RE := rcat [.wordB, rlit "FROM", rws1, .group 1 objIdent, .wordB]

/-- Model of `\b([A-Z][a-zA-Z0-9_]*(?:__c)?)\b` — SELECT-clause field extraction. -/
def selectFieldPat : RE := rcat [.wordB, .group 1 objIdent, .wordB]

/-- Model of `\b(?:insert|update|delete|upsert)\s+(obj)\b` -/
def dmlPat1 : RE := rcat
  [.wordB,
   .alt (rlit "insert") (.alt (rlit "update") (.alt (rlit "delete") (rlit "upsert"))),
   rws1, .group 1 objIdent, .wordB]

/-- Model of `\bnew\s+(obj)\s*\(` -/
def dmlPat2 : RE := rcat [.wordB, rlit "new", rws1, .group 1 objIdent, rws0, .chr '(']

/-- Model of `List<(obj)>` -/
def dmlPat3 : RE := rcat [rlit "List<", .group 1 objIdent, .chr '>']

/-- Model of `Map<[^,]+,\s*(obj)>` -/
def dmlPat4 : RE := rcat
  [rlit "Map<", rplus (.cls true [(',', ',')]), .chr ',', rws0, .group 1 objIdent, .chr '>']

/-- Model of `Set<(obj)>` -/
def dmlPat5 : RE := rcat [rlit "Set<", .group 1 objIdent, .chr '>']

/-- Model of `Schema\.(obj)` -/
def dmlPat6 : RE := rcat [rlit "Schema.", .group 1 objIdent]

/-- Model of `Schema\.getGlobalDescribe\(\)\.get\(['"](obj)['"]` -/
def dmlPat7 : RE := rcat
  [rlit "Schema.getGlobalDescribe().get(", rquote, .group 1 objIdent, rquote]

/-- Model of `\.([A-Z][a-zA-Z0-9_]*(?:__c)?)(?:\s*=|\s*!=|\s*>|\s*<)` -/
def fieldPat1 : RE := rcat
  [.chr '.', .group 1 objIdent,
   .alt (rcat [rws0, .chr '='])
     (.alt (rcat [rws0, rlit "!="])
       (.alt (rcat [rws0, .chr '>']) (rcat [rws0, .chr '<'])))]

/-- Model of `\.get\(['"](obj)['"]` -/
def fieldPat2 : RE := rcat [rlit ".get(", rquote, .group 1 objIdent, rquote]

/-- Model of `\.put\(['"](obj)['"]` -/
def fieldPat3 : RE := rcat [rlit ".put(", rquote, .group 1 objIdent, rquote]

/-- Model of `\b([A-Z][a-zA-Z0-9_]+)\.([a-zA-Z][a-zA-Z0-9_]*)\s*\(` — static method call. -/
def classPat1 : RE := rcat
  [.wordB, .group 1 clsIdent, .chr '.',
   .group 2 (rcat [.cls false [('a', 'z'), ('A', 'Z')], .star rword false]),
   rws0, .chr '(']

/-- Model of `\bnew\s+([A-Z][a-zA-Z0-9_]+)\s*\(` -/
def classPat2 : RE := rcat [.wordB, rlit "new", rws1, .group 1 clsIdent, rws0, .chr '(']

/-- Model of `extends\s+([A-Z][a-zA-Z0-9_]+)\b` -/
def classPat3 : RE := rcat [rlit "extends", rws1, .group 1 clsIdent, .wordB]

/-- Model of `implements\s+([A-Z][a-zA-Z0-9_]+)\b` -/
def classPat4 : RE := rcat [rlit "implements", rws1, .group 1 clsIdent, .wordB]

/-- Model of `@([A-Z][a-zA-Z0-9_]+)` -/
def classPat5 : RE := rcat [.chr '@', .group 1 clsIdent]

/-- Model of `catch\s*\(\s*([A-Z][a-zA-Z0-9_]+Exception)` -/
def classPat6 : RE := rcat
  [rlit "catch", rws0, .chr '(', rws0,
   .group 1 (rcat [rAZ, rplus rword, rlit "Exception"])]

/-- Model of `([A-Z][a-zA-Z0-9_]*__c)\.getInstance\(\)` -/
def csPat1 : RE := rcat
  [.group 1 (rcat [rAZ, .star rword false, rlit "__c"]), rlit ".getInstance()"]

/-- Model of `([A-Z][a-zA-Z0-9_]*__c)\.getValues\(\)` -/
def csPat2 : RE := rcat
  [.group 1 (rcat [rAZ, .star rword false, rlit "__c"]), rlit ".getValues()"]

/-- Model of `([A-Z][a-zA-Z0-9_]*__c)\.getAll\(\)` -/
def csPat3 : RE := rcat
  [.group 1 (rcat [rAZ, .star rword false, rlit "__c"]), rlit ".getAll()"]

/-- Model of `([A-Z][a-zA-Z0-9_]*__mdt)\b` -/
def csPat4 : RE := rcat
  [.group 1 (rcat [rAZ, .star rword false, rlit "__mdt"]), .wordB]

/-- Model of `[^'"]+` — inside-quotes capture. -/
def rnotquote : RE := rplus (.cls true [(squote, squote), (dquote, dquote)])

/-- Model of `\.setEndpoint\s*\(\s*['"]([^'"]+)['"]` -/
def wsPat1 : RE := rcat
  [rlit ".setEndpoint", rws0, .chr '(', rws0, rquote, .group 1 rnotquote, rquote]

/-- Model of `@RestResource\s*\(\s*urlMapping\s*=\s*['"]([^'"]+)['"]` -/
def wsPat2 : RE := rcat
  [rlit "@RestResource", rws0, .chr '(', rws0, rlit "urlMapping", rws0, .chr '=',
   rws0, rquote, .group 1 rnotquote, rquote]

/-- Model of `@HttpGet|@HttpPost|@HttpPut|@HttpDelete|@HttpPatch` (no group). -/
def wsPat3 : RE :=
  .alt (rlit "@HttpGet") (.alt (rlit "@HttpPost")
    (.alt (rlit "@HttpPut") (.alt (rlit "@HttpDelete") (rlit "@HttpPatch"))))

/-- Model of `Webservice\s+static` (no group). -/
def wsPat4 : RE := rcat [rlit "Webservice", rws1, rlit "static"]

/-- Model of `Http\s+\w+\s*=\s*new\s+Http\(\)` (no group). -/
def wsPat5 : RE := rcat
  [rlit "Http", rws1, rplus rword, rws0, .chr '=', rws0, rlit "new", rws1, rlit "Http()"]

/-- Model of `\.setTemplateId\s*\(\s*['"]([^'"]+)['"]` -/
def emPat1 : RE := rcat
  [rlit ".setTemplateId", rws0, .chr '(', rws0, rquote, .group 1 rnotquote, rquote]

/-- Model of `EmailTemplate\s+\w+` (no group). -/
def emPat2 : RE := rcat [rlit "EmailTemplate", rws1, rplus rword]

/-- Model of `Messaging\.SingleEmailMessage` (no group). -/
def emPat3 : RE := rlit "Messaging.SingleEmailMessage"

/-- Model of `Messaging\.MassEmailMessage` (no group). -/
def emPat4 : RE := rlit "Messaging.MassEmailMessage"

/-- Model of `Messaging\.sendEmail` (no group). -/
def emPat5 : RE := rlit "Messaging.sendEmail"

/-- Model of `Label\.([A-Z][a-zA-Z0-9_]*)` -/
def lbPat1 : RE := rcat [rlit "Label.", .group 1 (rcat [rAZ, .star rword false])]

/-- Model of `\$Label\.([A-Z][a-zA-Z0-9_]*)` -/
def lbPat2 : RE := rcat [.chr '$', rlit "Label.", .group 1 (rcat [rAZ, .star rword false])]

/-- Model of `\$Resource\.([A-Z][a-zA-Z0-9_]*)` -/
def srPat1 : RE := rcat [.chr '$', rlit "Resource.", .group 1 (rcat [rAZ, .star rword false])]

/-- Model of `StaticResource\.([A-Z][a-zA-Z0-9_]*)` -/
def srPat2 : RE := rcat [rlit "StaticResource.", .group 1 (rcat [rAZ, .star rword false])]

/-- Model of `trigger\s+\w+\s+on\s+(\w+)\s*\(` — `extract_trigger_object` pattern. -/
def triggerObjPat : RE := rcat
  [rlit "trigger", rws1, rplus rword, rws1, rlit "on", rws1,
   .group 1 (rplus rword), rws0, .chr '(']

/-- Model of `trigger\s+\w+\s+on\s+\w+\s*\(\s*([^)]+)\s*\)` — `extract_trigger_events`. -/
def triggerEvtPat : RE := rcat
  [rlit "trigger", rws1, rplus rword, rws1, rlit "on", rws1, rplus rword,
   rws0, .chr '(', rws0, .group 1 (rplus (.cls true [(')', ')')])), rws0, .chr ')']

/-- Model of `re.findall` projected to group 1. -/
def fa1 (ic dotall : Bool) (r : RE) (s : List Char) : List String :=
  (reFindAll ic dotall r s).map (fun m => m.grp 1)

/-- Model of `re.findall` projected to the (group 1, group 2) tuples. -/
def fa2 (ic dotall : Bool) (r : RE) (s : List Char) : List (String × String) :=
  (reFindAll ic dotall r s).map (fun m => (m.grp 1, m.grp 2))

/-- Model of `re.findall` for a pattern without groups: the full match text. -/
def fa0 (ic dotall : Bool) (r : RE) (s : List Char) : List String :=
  (reFindAll ic dotall r s).map (fun m => String.mk m.whole)

/-! ## `extract_comprehensive_dependencies` (metadata_converter.py 369-520) -/

/-- The fixed denylist `system_classes` of built-in platform classes. -/
def system_classes : List String :=
  ["System", "Database", "String", "Integer", "Boolean", "Decimal", "Date",
   "DateTime", "Time", "Messaging", "Http", "HttpRequest", "HttpResponse",
   "JSON", "Math", "Test", "Schema", "UserInfo", "Limits", "ApexPages",
   "PageReference", "Blob", "Crypto", "Pattern", "Matcher", "Exception",
   "DmlException", "QueryException"]

/-- Two-group SOQL matches (patterns 1-3, `IGNORECASE | DOTALL`):
`(SELECT clause, object name)` pairs in pattern order. -/
def soqlPairs (src : List Char) : List (String × String) :=
  fa2 true true soqlPat1 src ++ fa2 true true soqlPat2 src ++ fa2 true true soqlPat3 src

/-- Model of `objects` contributions of the SOQL patterns (the two-group patterns give
the object name, the bare `FROM` pattern its single group). -/
def soqlObjects (src : List Char) : List String :=
  (soqlPairs src).map (·.2) ++ fa1 true true soqlPat4 src

/-- Individual fields of one SELECT clause prefixed by the object name
(`re.findall` without flags, then prefixed with the object name and a dot). -/
def selectFields (objName : String) (fieldsStr : String) : List String :=
  (fa1 false false selectFieldPat fieldsStr.toList).map (fun f => objName ++ "." ++ f)

/-- Model of `fields` contributions of the SOQL patterns. -/
def soqlFields (src : List Char) : List String :=
  (soqlPairs src).flatMap (fun p => selectFields p.2 p.1)

/-- Model of `objects` contributions of the DML/type patterns (`IGNORECASE`). -/
def dmlObjects (src : List Char) : List String :=
  fa1 true false dmlPat1 src ++ fa1 true false dmlPat2 src ++ fa1 true false dmlPat3 src ++
  fa1 true false dmlPat4 src ++ fa1 true false dmlPat5 src ++ fa1 true false dmlPat6 src ++
  fa1 true false dmlPat7 src

/-- Model of `fields` contributions of the bare field-reference patterns (no flags). -/
def fieldRefs (src : List Char) : List String :=
  fa1 false false fieldPat1 src ++ fa1 false false fieldPat2 src ++ fa1 false false fieldPat3 src

/-- Model of `classes` accumulation: the two-group static-call pattern contributes its
class name, the one-group patterns their group, each filtered through the
`system_classes` denylist. -/
def classesRaw (src : List Char) : List String :=
  ((fa2 false false classPat1 src).filter (fun p => p.1 ∉ system_classes)).map (·.1) ++
  ((fa1 false false classPat2 src ++ fa1 false false classPat3 src ++
    fa1 false false classPat4 src ++ fa1 false false classPat5 src ++
    fa1 false false classPat6 src).filter (fun c => c ∉ system_classes))

/-- Model of `methods` accumulation: the class name, a dot and the method name for each static
call whose class is not denylisted. -/
def methodsRaw (src : List Char) : List String :=
  ((fa2 false false classPat1 src).filter (fun p => p.1 ∉ system_classes)).map
    (fun p => p.1 ++ "." ++ p.2)

/-- Model of `custom_settings` accumulation. -/
def customSettingsRaw (src : List Char) : List String :=
  fa1 false false csPat1 src ++ fa1 false false csPat2 src ++
  fa1 false false csPat3 src ++ fa1 false false csPat4 src

/-- Model of `web_services` accumulation (group for the first two patterns, whole match
for the group-less ones). -/
def webServicesRaw (src : List Char) : List String :=
  fa1 false false wsPat1 src ++ fa1 false false wsPat2 src ++
  fa0 false false wsPat3 src ++ fa0 false false wsPat4 src ++ fa0 false false wsPat5 src

/-- Model of `email_templates` accumulation. -/
def emailTemplatesRaw (src : List Char) : List String :=
  fa1 false false emPat1 src ++ fa0 false false emPat2 src ++
  fa0 false false emPat3 src ++ fa0 false false emPat4 src ++ fa0 false false emPat5 src

/-- Model of `custom_labels` accumulation. -/
def customLabelsRaw (src : List Char) : List String :=
  fa1 false false lbPat1 src ++ fa1 false false lbPat2 src

/-- Model of `static_resources` accumulation. -/
def staticResourcesRaw (src : List Char) : List String :=
  fa1 false false srPat1 src ++ fa1 false false srPat2 src

/-- The dependency dictionary right before the final clean-up: the eleven keys
in their Python insertion order, each holding its accumulated raw list. -/
def rawDeps (src : List Char) : List (String × List String) :=
  [("objects", soqlObjects src ++ dmlObjects src),
   ("classes", classesRaw src),
   ("fields", soqlFields src ++ fieldRefs src),
   ("methods", methodsRaw src),
   ("custom_settings", customSettingsRaw src),
   ("web_services", webServicesRaw src),
   ("email_templates", emailTemplatesRaw src),
   ("custom_labels", customLabelsRaw src),
   ("static_resources", staticResourcesRaw src),
   ("triggers", []),
   ("workflows", [])]

/-- Model of `list(set([dep for dep in l if dep and len(dep) > 1]))`: drop empty and
single-character entries, then de-duplicate (set order modelled as
`List.dedup`). -/
def dedupClean (l : List String) : List String :=
  (l.filter (fun d => 1 < d.length)).dedup

/-- Model of `extract_comprehensive_dependencies(source_code, component_name,
component_type)`; the last two arguments are accepted and ignored exactly as
in the source. -/
def extract_comprehensive_dependencies (src : List Char)
    (_component_name _component_type : String) : List (String × List String) :=
  (rawDeps src).map (fun p => (p.1, dedupClean p.2))

/-- Category lookup (`dependencies[key]`, defaulting like `dict.get`). -/
def getCat (deps : List (String × List String)) (k : String) : List String :=
  (deps.lookup k).getD []

/-! ## Python string primitives

Computable (kernel-reducible) models of the Python string methods the source
uses: `strip`, `endswith`, `startswith`, `replace` (all occurrences,
left-to-right, non-overlapping) and single-character `split`. -/

/-- Python whitespace as stripped by `str.strip()`. -/
def pyWs (c : Char) : Bool :=
  c = ' ' || c = '\t' || c = '\n' || c = '\r' || c = Char.ofNat 11 || c = Char.ofNat 12

/-- Model of `s.strip()`. -/
def trimS (s : String) : String :=
  (((s.toList.dropWhile pyWs).reverse.dropWhile pyWs).reverse).asString

/-- Model of `s.endswith(suffix)`. -/
def endsWithS (s suffix : String) : Bool :=
  List.isPrefixOf suffix.toList.reverse s.toList.reverse

/-- Model of `s.startswith(pre)`. -/
def startsWithS (s pre : String) : Bool :=
  List.isPrefixOf pre.toList s.toList

/-- Replace every non-overlapping occurrence of `pat` (nonempty) in `s`,
scanning left to right; the fuel is the length of `s`, enough since every
step consumes at least one character. -/
def replaceList (pat rep : List Char) : Nat → List Char → List Char
  | 0, s => s
  | fuel + 1, s =>
    if pat.isPrefixOf s then rep ++ replaceList pat rep fuel (s.drop pat.length)
    else
      match s with
      | [] => []
      | c :: cs => c :: replaceList pat rep fuel cs

/-- Model of `s.replace(pat, rep)` for a nonempty `pat` (every use in the source has
one). -/
def replaceS (s pat rep : String) : String :=
  if pat.toList.isEmpty then s
  else (replaceList pat.toList rep.toList (s.toList.length + 1) s.toList).asString

/-- Model of `s.split(c)` for a single-character separator. -/
def splitChar (c : Char) : List Char → List (List Char)
  | [] => [[]]
  | x :: xs =>
    match splitChar c xs with
    | [] => [[]]
    | h :: t => if x = c then [] :: h :: t else (x :: h) :: t

/-- Model of `s.split(sep)` for a one-character separator string, as `String`s. -/
def splitS (s : String) (c : Char) : List String :=
  (splitChar c s.toList).map List.asString

/-! ## XML normalization (`xml_to_dict`, metadata_converter.py 34-68)

File paths are abstracted to the name/stem strings the code derives from them;
`ET.parse` is modelled as an `Except String Xml` input (a parse either yields
the document root or raises with a message). -/

/-- An XML element: tag, optional text, attributes, child elements. -/
inductive Xml where
  | elem (tag : String) (text : Option String) (attrs : List (String × String))
      (children : List Xml)
deriving Repr

/-- Tag accessor. -/
def Xml.tagOf : Xml → String
  | .elem t _ _ _ => t

/-- Text accessor. -/
def Xml.textOf : Xml → Option String
  | .elem _ tx _ _ => tx

/-- Children accessor. -/
def Xml.childrenOf : Xml → List Xml
  | .elem _ _ _ cs => cs

/-- The Python values `xml_to_dict` produces: strings, dicts, lists, `None`. -/
inductive PyVal where
  | str (s : String)
  | dict (entries : List (String × PyVal))
  | list (items : List PyVal)
  | none
deriving Repr

/-- Model of `remove_namespace`: the part of the tag after the last brace
(`tag.split(sep)[-1]`). -/
def remove_namespace (tag : String) : String :=
  if tag.toList.contains '}' then
    ((tag.toList.reverse.takeWhile (· ≠ '}')).reverse).asString
  else tag

/-- Replace the binding of `k` (dict update of an existing key). -/
def updateAssoc (acc : List (String × PyVal)) (k : String) (v : PyVal) :
    List (String × PyVal) :=
  acc.map (fun p => if p.1 = k then (k, v) else p)

/-- Child accumulation of `xml_to_dict`: a repeated tag collapses its values
into an ordered list. -/
def addChild (acc : List (String × PyVal)) (tag : String) (v : PyVal) :
    List (String × PyVal) :=
  match acc.lookup tag with
  | Option.none => acc ++ [(tag, v)]
  | some (.list items) => updateAssoc acc tag (.list (items ++ [v]))
  | some cur => updateAssoc acc tag (.list [cur, v])

/-- Model of `dict.update`: merge `extra` into `base`, overwriting clashing keys in
place, appending fresh ones. -/
def dictUpdate (base extra : List (String × PyVal)) : List (String × PyVal) :=
  extra.foldl
    (fun acc p =>
      if (acc.lookup p.1).isSome then updateAssoc acc p.1 p.2 else acc ++ [p]) base

mutual

/-- Model of `xml_to_dict`: a leaf with text becomes its stripped text; otherwise a
dict of `_text`, `_attributes` and child tags (repeated tags as lists); an
empty result is `None`. -/
def xml_to_dict : Xml → PyVal
  | .elem _ text attrs children =>
    let t := trimS (text.getD "")
    if children.isEmpty && t ≠ "" then .str t
    else
      let base : List (String × PyVal) :=
        (if t ≠ "" then [("_text", PyVal.str t)] else []) ++
        (if attrs.isEmpty then []
         else [("_attributes", PyVal.dict (attrs.map (fun p => (p.1, PyVal.str p.2))))])
      let cs := (childPairs children).foldl (fun acc p => addChild acc p.1 p.2) []
      let result := dictUpdate base cs
      if result.isEmpty then .none else .dict result

/-- The `(stripped tag, converted value)` pairs of a child list, in order. -/
def childPairs : List Xml → List (String × PyVal)
  | [] => []
  | c :: cs => (remove_namespace c.tagOf, xml_to_dict c) :: childPairs cs

end

mutual

/-- Model of `element.iter()`: the element and all descendants in document order. -/
def iterAll : Xml → List Xml
  | .elem t tx a cs => .elem t tx a cs :: iterList cs

def iterList : List Xml → List Xml
  | [] => []
  | c :: cs => iterAll c ++ iterList cs

end

/-- Python truthiness of an optional text plus `.strip()`:
`if el.text: use el.text.strip()`. -/
def truthyText (t : Option String) : Option String :=
  match t with
  | some s => if s ≠ "" then some (trimS s) else Option.none
  | Option.none => Option.none

/-! ## Entity records, statistics and edges (metadata_converter.py) -/

/-- A synthesized edge `{from, to, type, details?}` (`details` is present on
some edge kinds and absent on the purely structural ones). -/
structure Edge where
  fromId : String
  toId : String
  rtype : String
  details : Option String
deriving Repr, DecidableEq

/-- The run statistics object `conversion_stats`. -/
structure Stats where
  objects_processed : Nat
  fields_processed : Nat
  layouts_processed : Nat
  classes_processed : Nat
  triggers_processed : Nat
  workflows_processed : Nat
  errors : List String
deriving Repr, DecidableEq

/-- The initial statistics of a run. -/
def initStats : Stats := ⟨0, 0, 0, 0, 0, 0, []⟩

/-- Field, list-view and web-link records share the shape
`{id, type, name, object, metadata}`; `stype` holds the `type` key. -/
structure SubData where
  id : String
  stype : String
  name : String
  object : String
  metadata : PyVal
deriving Repr

/-- A `CustomObject` record. -/
structure ObjectData where
  id : String
  otype : String
  name : String
  metadata : PyVal
  fields : List SubData
  listViews : List SubData
  webLinks : List SubData
deriving Repr

/-- One parsed layout section (`columns` is initialized to 1 and never
updated by the source). -/
structure LayoutSection where
  label : String
  columns : Nat
  fields : List String
deriving Repr, DecidableEq

/-- One related-list block of a layout. -/
structure RelatedList where
  object : String
  fields : List String
  label : String
deriving Repr, DecidableEq

/-- A `Layout` record. -/
structure LayoutData where
  id : String
  ltype : String
  name : String
  object : String
  metadata : PyVal
  fields_on_layout : List String
  sections : List LayoutSection
  related_lists : List RelatedList
deriving Repr

/-- An `ApexClass` record. -/
structure ClassData where
  id : String
  ctype : String
  name : String
  source_code : List Char
  metadata : PyVal
  comprehensive_dependencies : List (String × List String)
deriving Repr

/-- An `ApexTrigger` record; `object?` models the `object` key, which is only
set when the header pattern matches. -/
structure TriggerData where
  id : String
  ttype : String
  name : String
  source_code : List Char
  metadata : PyVal
  trigger_events : List String
  object? : Option String
  comprehensive_dependencies : List (String × List String)
deriving Repr

/-- A `Workflow` record. -/
structure WorkflowData where
  id : String
  wtype : String
  name : String
  object : String
  metadata : PyVal
deriving Repr

/-- A definition file, abstracted to its derived name and its parse outcome. -/
structure XFile where
  name : String
  content : Except String Xml

/-- An Apex code file: stem name, raw source text, and the optional companion
`-meta.xml` file with its parse outcome. -/
structure CodeFile where
  name : String
  source : List Char
  meta : Option (Except String Xml)

/-- One object directory: the object definition file (if present) and the
field/list-view/web-link sub-files. -/
structure ObjectDir where
  name : String
  objectFile : Option (Except String Xml)
  fieldFiles : List XFile
  listViewFiles : List XFile
  webLinkFiles : List XFile

/-- The whole input tree walked by `convert_all_metadata`. -/
structure SourceTree where
  objects : List ObjectDir
  layouts : List XFile
  classes : List CodeFile
  triggers : List CodeFile
  workflows : List XFile

/-- Substring test (Python `sub in s`). -/
def hasSubstr (s sub : String) : Bool :=
  (List.range (s.toList.length + 1)).any
    (fun i => List.isPrefixOf sub.toList (s.toList.drop i))

/-- Does the string contain a dot (`'.' in field`)? -/
def hasDot (s : String) : Bool := s.toList.contains '.'

/-- Model of `s.split(sep, 1)` restricted to one dot: portion before the first `.` and
portion after it. -/
def splitDot1 (s : String) : String × String :=
  ((s.toList.takeWhile (· ≠ '.')).asString,
   (((s.toList.dropWhile (· ≠ '.')).drop 1)).asString)

/-! ## The per-component processors -/

/-- Model of `process_field` (lines 138-158): a parse failure appends one error and
yields `None`; success builds the record and bumps `fields_processed`. -/
def process_field (field_file : XFile) (object_name : String) (st : Stats) :
    Option SubData × Stats :=
  match field_file.content with
  | .ok root =>
    (some ⟨"field_" ++ object_name ++ "_" ++ field_file.name, "CustomField",
       field_file.name, object_name, xml_to_dict root⟩,
     { st with fields_processed := st.fields_processed + 1 })
  | .error e =>
    (Option.none,
     { st with errors :=
         st.errors ++ ["Error processing field " ++ field_file.name ++ ": " ++ e] })

/-- Model of `process_listview` (lines 160-177); no counter exists for list views. -/
def process_listview (lv_file : XFile) (object_name : String) (st : Stats) :
    Option SubData × Stats :=
  match lv_file.content with
  | .ok root =>
    (some ⟨"listview_" ++ object_name ++ "_" ++ lv_file.name, "ListView",
       lv_file.name, object_name, xml_to_dict root⟩, st)
  | .error e =>
    (Option.none,
     { st with errors :=
         st.errors ++ ["Error processing listview " ++ lv_file.name ++ ": " ++ e] })

/-- Model of `process_weblink` (lines 179-196); no counter exists for web links. -/
def process_weblink (wl_file : XFile) (object_name : String) (st : Stats) :
    Option SubData × Stats :=
  match wl_file.content with
  | .ok root =>
    (some ⟨"weblink_" ++ object_name ++ "_" ++ wl_file.name, "WebLink",
       wl_file.name, object_name, xml_to_dict root⟩, st)
  | .error e =>
    (Option.none,
     { st with errors :=
         st.errors ++ ["Error processing weblink " ++ wl_file.name ++ ": " ++ e] })

/-- The field loop of `process_custom_object`: each successful field is
collected and a `HAS_FIELD` edge appended; failures skip silently onward. -/
def processFieldFiles : List XFile → String → String → Stats → List Edge →
    List SubData × Stats × List Edge
  | [], _, _, st, rels => ([], st, rels)
  | f :: fs, objName, oid, st, rels =>
    match process_field f objName st with
    | (some fd, st') =>
      let rels' := rels ++ [⟨oid, fd.id, "HAS_FIELD", Option.none⟩]
      let (rest, st'', rels'') := processFieldFiles fs objName oid st' rels'
      (fd :: rest, st'', rels'')
    | (Option.none, st') => processFieldFiles fs objName oid st' rels

/-- The list-view loop of `process_custom_object` (edge `HAS_LISTVIEW`). -/
def processListViewFiles : List XFile → String → String → Stats → List Edge →
    List SubData × Stats × List Edge
  | [], _, _, st, rels => ([], st, rels)
  | f :: fs, objName, oid, st, rels =>
    match process_listview f objName st with
    | (some d, st') =>
      let rels' := rels ++ [⟨oid, d.id, "HAS_LISTVIEW", Option.none⟩]
      let (rest, st'', rels'') := processListViewFiles fs objName oid st' rels'
      (d :: rest, st'', rels'')
    | (Option.none, st') => processListViewFiles fs objName oid st' rels

/-- The web-link loop of `process_custom_object` (edge `HAS_WEBLINK`). -/
def processWebLinkFiles : List XFile → String → String → Stats → List Edge →
    List SubData × Stats × List Edge
  | [], _, _, st, rels => ([], st, rels)
  | f :: fs, objName, oid, st, rels =>
    match process_weblink f objName st with
    | (some d, st') =>
      let rels' := rels ++ [⟨oid, d.id, "HAS_WEBLINK", Option.none⟩]
      let (rest, st'', rels'') := processWebLinkFiles fs objName oid st' rels'
      (d :: rest, st'', rels'')
    | (Option.none, st') => processWebLinkFiles fs objName oid st' rels

/-- Model of `process_custom_object` (lines 70-136): a malformed object definition file
records an error but field/list-view/web-link processing still continues; the
record itself is always returned. -/
def process_custom_object (d : ObjectDir) (st : Stats) (rels : List Edge) :
    ObjectData × Stats × List Edge :=
  let oid := "object_" ++ d.name
  let (meta, st1) :=
    match d.objectFile with
    | some (.ok root) =>
      (xml_to_dict root, { st with objects_processed := st.objects_processed + 1 })
    | some (.error e) =>
      (PyVal.dict [],
       { st with errors := st.errors ++ ["Error processing " ++ d.name ++ ": " ++ e] })
    | Option.none => (PyVal.dict [], st)
  let (flds, st2, rels2) := processFieldFiles d.fieldFiles d.name oid st1 rels
  let (lvs, st3, rels3) := processListViewFiles d.listViewFiles d.name oid st2 rels2
  let (wls, st4, rels4) := processWebLinkFiles d.webLinkFiles d.name oid st3 rels3
  (⟨oid, "CustomObject", d.name, meta, flds, lvs, wls⟩, st4, rels4)

/-! ## Layout analysis (metadata_converter.py 198-239, 669-773) -/

/-- Model of `_extract_layout_fields`: every `field`-tagged descendant with truthy
text, stripped, then `list(set(...))`. -/
def extractLayoutFields (root : Xml) : List String :=
  ((iterAll root).filterMap
    (fun el =>
      if remove_namespace el.tagOf = "field" then truthyText el.textOf
      else Option.none)).dedup

/-- The per-section accumulation of `_extract_layout_sections`: direct
children set the label (`label` tag with truthy text, last wins) or extend the
field list (`layoutColumns` tag: every `field`-tagged descendant with truthy
text). -/
def sectionOf (el : Xml) : LayoutSection :=
  el.childrenOf.foldl
    (fun sd child =>
      if remove_namespace child.tagOf = "label" then
        match truthyText child.textOf with
        | some l => ⟨l, sd.columns, sd.fields⟩
        | Option.none => sd
      else if remove_namespace child.tagOf = "layoutColumns" then
        ⟨sd.label, sd.columns,
         sd.fields ++ (iterAll child).filterMap
           (fun fi =>
             if remove_namespace fi.tagOf = "field" then truthyText fi.textOf
             else Option.none)⟩
      else sd)
    ⟨"", 1, []⟩

/-- Model of `_extract_layout_sections`: every `layoutSection`-tagged descendant whose
section has a label or fields. -/
def extractLayoutSections (root : Xml) : List LayoutSection :=
  (iterAll root).filterMap
    (fun el =>
      if remove_namespace el.tagOf = "layoutSection" then
        let sd := sectionOf el
        if sd.label ≠ "" ∨ sd.fields ≠ [] then some sd else Option.none
      else Option.none)

/-- The per-block accumulation of `_extract_related_lists`: a
`relatedList`-tagged child with truthy text sets the target object (last
wins); a `fields`-tagged child contributes every descendant with truthy text
(no tag filter in the source). -/
def relatedListOf (el : Xml) : RelatedList :=
  el.childrenOf.foldl
    (fun rl child =>
      if remove_namespace child.tagOf = "relatedList" then
        match truthyText child.textOf with
        | some o => ⟨o, rl.fields, rl.label⟩
        | Option.none => rl
      else if remove_namespace child.tagOf = "fields" then
        ⟨rl.object,
         rl.fields ++ (iterAll child).filterMap (fun fi => truthyText fi.textOf),
         rl.label⟩
      else rl)
    ⟨"", [], ""⟩

/-- Model of `_extract_related_lists`: every `relatedList`-tagged descendant whose
block names a target object. -/
def extractRelatedLists (root : Xml) : List RelatedList :=
  (iterAll root).filterMap
    (fun el =>
      if remove_namespace el.tagOf = "relatedList" then
        let rl := relatedListOf el
        if rl.object ≠ "" then some rl else Option.none
      else Option.none)

/-- Model of `_create_layout_relationships` (lines 736-773). -/
def _create_layout_relationships (layout_id object_name : String)
    (fields : List String) (related_lists : List RelatedList) : List Edge :=
  [⟨"object_" ++ object_name, layout_id, "HAS_LAYOUT",
     some ("Layout displays " ++ toString fields.length ++ " fields")⟩] ++
  fields.map (fun field =>
    ⟨layout_id, "field_" ++ object_name ++ "_" ++ field, "DISPLAYS_FIELD",
     some ("Field " ++ field ++ " is displayed on layout")⟩) ++
  related_lists.flatMap (fun rl =>
    if rl.object ≠ "" then
      ⟨layout_id, "object_" ++ rl.object, "SHOWS_RELATED_LIST",
       some ("Layout shows related " ++ rl.object ++ " records")⟩ ::
      rl.fields.map (fun field =>
        ⟨layout_id, "field_" ++ rl.object ++ "_" ++ field, "DISPLAYS_RELATED_FIELD",
         some ("Related list displays field " ++ field)⟩)
    else [])

/-- The layout id sanitization chain of `process_layout` line 209. -/
def layoutId (layout_name : String) : String :=
  "layout_" ++ replaceS (replaceS (replaceS (replaceS (replaceS layout_name
    " " "_") "(" "") ")" "") "%28" "") "%29" ""

/-- Model of `process_layout` (lines 198-239). -/
def process_layout (f : XFile) (st : Stats) (rels : List Edge) :
    Option LayoutData × Stats × List Edge :=
  match f.content with
  | .error e =>
    (Option.none,
     { st with errors := st.errors ++ ["Error processing layout " ++ f.name ++ ": " ++ e] },
     rels)
  | .ok root =>
    let layout_name := f.name
    let object_name := (layout_name.toList.takeWhile (· ≠ '-')).asString
    let lid := layoutId layout_name
    let fields := extractLayoutFields root
    let sections := extractLayoutSections root
    let related_lists := extractRelatedLists root
    let rels' := rels ++ _create_layout_relationships lid object_name fields related_lists
    (some ⟨lid, "Layout", layout_name, object_name, xml_to_dict root, fields,
       sections, related_lists⟩,
     { st with layouts_processed := st.layouts_processed + 1 }, rels')

/-! ## Code components (metadata_converter.py 241-338, 522-667) -/

/-- The `USES_OBJECT` edge of a class (lines 526-532). -/
def usesObjectEdge (class_id obj : String) : Edge :=
  ⟨class_id, "object_" ++ obj, "USES_OBJECT",
   some "References object in SOQL/DML operations"⟩

/-- The `DEPENDS_ON_CLASS` edge of a class (lines 535-541). -/
def dependsOnClassEdge (class_id cls : String) : Edge :=
  ⟨class_id, "class_" ++ cls, "DEPENDS_ON_CLASS",
   some "Calls methods or instantiates class"⟩

/-- The `ACCESSES_FIELD` edge of a class for a dotted field entry
(lines 544-552, `field.split('.', 1)`). -/
def accessesFieldEdge (class_id field : String) : Edge :=
  ⟨class_id, "field_" ++ (splitDot1 field).1 ++ "_" ++ (splitDot1 field).2,
   "ACCESSES_FIELD",
   some ("Accesses field " ++ (splitDot1 field).2 ++ " on " ++ (splitDot1 field).1)⟩

/-- The `CALLS_METHOD` edge of a class for a dotted method entry
(lines 555-563). -/
def callsMethodEdge (class_id m : String) : Edge :=
  ⟨class_id, "class_" ++ (splitDot1 m).1, "CALLS_METHOD",
   some ("Calls method " ++ (splitDot1 m).2)⟩

/-- The `USES_CUSTOM_SETTING` edge of a class (lines 566-572). -/
def usesCustomSettingEdge (class_id s : String) : Edge :=
  ⟨class_id, "object_" ++ s, "USES_CUSTOM_SETTING",
   some "Accesses custom setting or metadata"⟩

/-- The `CALLS_WEBSERVICE` edge of a class (lines 575-582). -/
def callsWebserviceEdge (class_id svc : String) : Edge :=
  ⟨class_id, "webservice_" ++ replaceS (replaceS svc "/" "_") ":" "_",
   "CALLS_WEBSERVICE", some ("Makes HTTP callout to " ++ svc)⟩

/-- The `USES_EMAIL_TEMPLATE` edge of a class (lines 585-591). -/
def usesEmailTemplateEdge (class_id t : String) : Edge :=
  ⟨class_id, "emailtemplate_" ++ t, "USES_EMAIL_TEMPLATE",
   some "Uses email template for messaging"⟩

/-- The `USES_CUSTOM_LABEL` edge of a class (lines 594-600). -/
def usesCustomLabelEdge (class_id l : String) : Edge :=
  ⟨class_id, "customlabel_" ++ l, "USES_CUSTOM_LABEL",
   some "References custom label"⟩

/-- The `USES_STATIC_RESOURCE` edge of a class (lines 603-609). -/
def usesStaticResourceEdge (class_id r : String) : Edge :=
  ⟨class_id, "staticresource_" ++ r, "USES_STATIC_RESOURCE",
   some "References static resource"⟩

/-- Model of `_create_class_relationships` (lines 522-609). -/
def _create_class_relationships (class_id : String)
    (deps : List (String × List String)) : List Edge :=
  (getCat deps "objects").map (usesObjectEdge class_id) ++
  (getCat deps "classes").map (dependsOnClassEdge class_id) ++
  (getCat deps "fields").filterMap (fun field =>
    if hasDot field then some (accessesFieldEdge class_id field) else Option.none) ++
  (getCat deps "methods").filterMap (fun m =>
    if hasDot m then some (callsMethodEdge class_id m) else Option.none) ++
  (getCat deps "custom_settings").map (usesCustomSettingEdge class_id) ++
  (getCat deps "web_services").filterMap (fun svc =>
    if startsWithS svc "http" then some (callsWebserviceEdge class_id svc)
    else Option.none) ++
  (getCat deps "email_templates").map (usesEmailTemplateEdge class_id) ++
  (getCat deps "custom_labels").map (usesCustomLabelEdge class_id) ++
  (getCat deps "static_resources").map (usesStaticResourceEdge class_id)

/-- The class edge of a trigger: `DELEGATES_TO_HANDLER` for a handler/helper
naming convention, `CALLS_CLASS` otherwise (lines 615-629). -/
def triggerClassEdge (trigger_id cls : String) : Edge :=
  if hasSubstr cls "Handler" ∨ hasSubstr cls "Helper" then
    ⟨trigger_id, "class_" ++ cls, "DELEGATES_TO_HANDLER",
     some "Trigger delegates business logic to handler class"⟩
  else
    ⟨trigger_id, "class_" ++ cls, "CALLS_CLASS",
     some "Trigger calls methods in this class"⟩

/-- The `AFFECTS_OBJECT` edge of a trigger (lines 632-639). -/
def affectsObjectEdge (trigger_id obj : String) : Edge :=
  ⟨trigger_id, "object_" ++ obj, "AFFECTS_OBJECT",
   some ("Trigger performs operations on " ++ obj)⟩

/-- The `MODIFIES_FIELD` edge of a trigger for a dotted field entry
(lines 642-650). -/
def modifiesFieldEdge (trigger_id field : String) : Edge :=
  ⟨trigger_id, "field_" ++ (splitDot1 field).1 ++ "_" ++ (splitDot1 field).2,
   "MODIFIES_FIELD",
   some ("Trigger modifies or reads field " ++ (splitDot1 field).2)⟩

/-- Model of `_create_trigger_relationships` (lines 611-650): note that no edge is
produced from the `methods` category for triggers. -/
def _create_trigger_relationships (trigger_id : String)
    (deps : List (String × List String)) (trigger_object : Option String) :
    List Edge :=
  (getCat deps "classes").map (triggerClassEdge trigger_id) ++
  (getCat deps "objects").filterMap (fun obj =>
    if some obj ≠ trigger_object then some (affectsObjectEdge trigger_id obj)
    else Option.none) ++
  (getCat deps "fields").filterMap (fun field =>
    if hasDot field then some (modifiesFieldEdge trigger_id field) else Option.none)

/-- Model of `extract_trigger_object` (lines 652-656): `re.search` with `IGNORECASE`. -/
def extract_trigger_object (src : List Char) : Option String :=
  (reSearch true false triggerObjPat (src.length + 1) Option.none src).map (fun m => m.grp 1)

/-- Model of `extract_trigger_events` (lines 658-667): the captured event list split on
commas with each entry stripped; no match gives `[]`. -/
def extract_trigger_events (src : List Char) : List String :=
  match reSearch true false triggerEvtPat (src.length + 1) Option.none src with
  | some m => (splitS (m.grp 1) (Char.ofNat 44)).map trimS
  | Option.none => []

/-- Model of `process_apex_class` (lines 241-280): a malformed companion meta file
raises inside the `try`, so the record is dropped, one error is recorded and
`classes_processed` is not bumped. -/
def process_apex_class (f : CodeFile) (st : Stats) (rels : List Edge) :
    Option ClassData × Stats × List Edge :=
  match f.meta with
  | some (.error e) =>
    (Option.none,
     { st with errors := st.errors ++ ["Error processing class " ++ f.name ++ ": " ++ e] },
     rels)
  | _ =>
    let meta := match f.meta with
      | some (.ok root) => xml_to_dict root
      | _ => PyVal.dict []
    let cid := "class_" ++ f.name
    let deps := extract_comprehensive_dependencies f.source f.name "ApexClass"
    (some ⟨cid, "ApexClass", f.name, f.source, meta, deps⟩,
     { st with classes_processed := st.classes_processed + 1 },
     rels ++ _create_class_relationships cid deps)

/-- Model of `process_trigger` (lines 282-338): the `object` key, events and the
`HAS_TRIGGER` edge appear only when the header pattern matches; trigger
dependency edges are synthesized regardless. -/
def process_trigger (f : CodeFile) (st : Stats) (rels : List Edge) :
    Option TriggerData × Stats × List Edge :=
  match f.meta with
  | some (.error e) =>
    (Option.none,
     { st with errors := st.errors ++ ["Error processing trigger " ++ f.name ++ ": " ++ e] },
     rels)
  | _ =>
    let meta := match f.meta with
      | some (.ok root) => xml_to_dict root
      | _ => PyVal.dict []
    let tid := "trigger_" ++ f.name
    let tobj := extract_trigger_object f.source
    let events := extract_trigger_events f.source
    let withObj : Option String × List String × List Edge :=
      match tobj with
      | some o =>
        (some o, events,
         rels ++ [⟨"object_" ++ o, tid, "HAS_TRIGGER",
           some ("Trigger events: " ++ String.intercalate ", " events)⟩])
      | Option.none => (Option.none, [], rels)
    let deps := extract_comprehensive_dependencies f.source f.name "ApexTrigger"
    (some ⟨tid, "ApexTrigger", f.name, f.source, meta, withObj.2.1, withObj.1, deps⟩,
     { st with triggers_processed := st.triggers_processed + 1 },
     withObj.2.2 ++ _create_trigger_relationships tid deps tobj)

/-- Model of `process_workflow` (lines 340-367): workflow files are named after their
object, and a `HAS_WORKFLOW` edge ties the two. -/
def process_workflow (f : XFile) (st : Stats) (rels : List Edge) :
    Option WorkflowData × Stats × List Edge :=
  match f.content with
  | .error e =>
    (Option.none,
     { st with errors := st.errors ++ ["Error processing workflow " ++ f.name ++ ": " ++ e] },
     rels)
  | .ok root =>
    let wid := "workflow_" ++ f.name
    (some ⟨wid, "Workflow", f.name, f.name, xml_to_dict root⟩,
     { st with workflows_processed := st.workflows_processed + 1 },
     rels ++ [⟨"object_" ++ f.name, wid, "HAS_WORKFLOW", Option.none⟩])

/-! ## The pipeline driver (`convert_all_metadata`, lines 775-847) -/

/-- The interchange output: entity arrays plus the flat edge array. -/
structure AllMetadata where
  objects : List ObjectData
  layouts : List LayoutData
  classes : List ClassData
  triggers : List TriggerData
  workflows : List WorkflowData

/-- The custom-object loop of `convert_all_metadata`. -/
def runObjects : List ObjectDir → Stats → List Edge →
    List ObjectData × Stats × List Edge
  | [], st, rels => ([], st, rels)
  | d :: ds, st, rels =>
    let (od, st', rels') := process_custom_object d st rels
    let (rest, st'', rels'') := runObjects ds st' rels'
    (od :: rest, st'', rels'')

/-- The layout loop of `convert_all_metadata` (`if layout_data:` keeps only
successful records). -/
def runLayouts : List XFile → Stats → List Edge →
    List LayoutData × Stats × List Edge
  | [], st, rels => ([], st, rels)
  | f :: fs, st, rels =>
    match process_layout f st rels with
    | (some ld, st', rels') =>
      let (rest, st'', rels'') := runLayouts fs st' rels'
      (ld :: rest, st'', rels'')
    | (Option.none, st', rels') => runLayouts fs st' rels'

/-- The class loop of `convert_all_metadata`. -/
def runClasses : List CodeFile → Stats → List Edge →
    List ClassData × Stats × List Edge
  | [], st, rels => ([], st, rels)
  | f :: fs, st, rels =>
    match process_apex_class f st rels with
    | (some cd, st', rels') =>
      let (rest, st'', rels'') := runClasses fs st' rels'
      (cd :: rest, st'', rels'')
    | (Option.none, st', rels') => runClasses fs st' rels'

/-- The trigger loop of `convert_all_metadata`. -/
def runTriggers : List CodeFile → Stats → List Edge →
    List TriggerData × Stats × List Edge
  | [], st, rels => ([], st, rels)
  | f :: fs, st, rels =>
    match process_trigger f st rels with
    | (some td, st', rels') =>
      let (rest, st'', rels'') := runTriggers fs st' rels'
      (td :: rest, st'', rels'')
    | (Option.none, st', rels') => runTriggers fs st' rels'

/-- The workflow loop of `convert_all_metadata`. -/
def runWorkflows : List XFile → Stats → List Edge →
    List WorkflowData × Stats × List Edge
  | [], st, rels => ([], st, rels)
  | f :: fs, st, rels =>
    match process_workflow f st rels with
    | (some wd, st', rels') =>
      let (rest, st'', rels'') := runWorkflows fs st' rels'
      (wd :: rest, st'', rels'')
    | (Option.none, st', rels') => runWorkflows fs st' rels'

/-- Model of `convert_all_metadata`: objects, then layouts, classes, triggers and
workflows, threading the statistics object and the accumulated edge list. -/
def convert_all_metadata (t : SourceTree) : AllMetadata × Stats × List Edge :=
  let (objs, st1, rels1) := runObjects t.objects initStats []
  let (lays, st2, rels2) := runLayouts t.layouts st1 rels1
  let (clss, st3, rels3) := runClasses t.classes st2 rels2
  let (trgs, st4, rels4) := runTriggers t.triggers st3 rels3
  let (wfs, st5, rels5) := runWorkflows t.workflows st4 rels4
  (⟨objs, lays, clss, trgs, wfs⟩, st5, rels5)

/-! ## Impact analysis (`analyze_relationships.py` 181-214) -/

/-- An entry of the `affects` list: `{target, type, details}`. -/
structure ImpactAffects where
  target : String
  rtype : String
  details : String
deriving Repr, DecidableEq

/-- An entry of the `affected_by` list: `{source, type, details}`. -/
structure ImpactAffectedBy where
  source : String
  rtype : String
  details : String
deriving Repr, DecidableEq

/-- Model of `generate_impact_analysis(component_id)`: one linear pass; an edge whose
`from` equals the component goes to `affects`, otherwise (elif) an edge whose
`to` equals it goes to `affected_by`.  Returns `(affected_by, affects)`. -/
def generate_impact_analysis (relationships : List Edge) (component_id : String) :
    List ImpactAffectedBy × List ImpactAffects :=
  relationships.foldl
    (fun acc rel =>
      if rel.fromId = component_id then
        (acc.1, acc.2 ++ [⟨rel.toId, rel.rtype, rel.details.getD ""⟩])
      else if rel.toId = component_id then
        (acc.1 ++ [⟨rel.fromId, rel.rtype, rel.details.getD ""⟩], acc.2)
      else acc)
    ([], [])

/-! ## Comprehensive parser (`comprehensive_metadata_parser.py` 176-263) -/

/-- Edges of the two standalone parsers carry a `context` key. -/
structure CEdge where
  fromId : String
  toId : String
  rtype : String
  context : String
deriving Repr, DecidableEq

/-- A parsed field as consumed by `analyze_comprehensive_relationships`:
`name` and the optional `referenceTo` key. -/
structure CField where
  name : String
  referenceTo : Option String
deriving Repr, DecidableEq

/-- A parsed object as consumed by `analyze_comprehensive_relationships`. -/
structure CObjData where
  fields : List CField
  listViews : List String
  webLinks : List String
deriving Repr, DecidableEq

/-- The fixed `standard_relationships` block shared by both parsers. -/
def standard_relationships : List CEdge :=
  [⟨"Contact", "Account", "BELONGS_TO", "Contact.AccountId lookup field"⟩,
   ⟨"Opportunity", "Account", "BELONGS_TO", "Opportunity.AccountId lookup field"⟩,
   ⟨"Opportunity", "Contact", "RELATES_TO", "Opportunity can have Contact roles"⟩]

/-- The per-field edges of `analyze_comprehensive_relationships` (lines
209-238): `HAS_FIELD`, a `REFERENCES` edge for a truthy `referenceTo`, and the
`Id`-suffix lookup heuristic (`field_name.replace('Id', '')` against the fixed
known-object list). -/
def comprehensiveFieldEdges (obj_name : String) (field : CField) : List CEdge :=
  [⟨obj_name, field.name, "HAS_FIELD",
     obj_name ++ " object has field " ++ field.name⟩] ++
  (match field.referenceTo with
   | some r =>
     if r ≠ "" then
       [⟨obj_name, r, "REFERENCES",
         obj_name ++ "." ++ field.name ++ " references " ++ r⟩]
     else []
   | Option.none => []) ++
  (if endsWithS field.name "Id" ∧ field.name ≠ "Id" then
     let target_object := replaceS field.name "Id" ""
     if target_object ∈ ["Account", "Contact", "Opportunity"] then
       [⟨obj_name, target_object, "LOOKUP_TO",
         obj_name ++ "." ++ field.name ++ " lookup to " ++ target_object⟩]
     else []
   else [])

/-- Model of `analyze_comprehensive_relationships` over `self.objects_data` (an
ordered name-to-record mapping). -/
def analyze_comprehensive_relationships
    (objects_data : List (String × CObjData)) : List CEdge :=
  standard_relationships ++
  objects_data.flatMap (fun od =>
    od.2.fields.flatMap (comprehensiveFieldEdges od.1) ++
    od.2.listViews.map (fun lv =>
      ⟨od.1, lv, "HAS_LISTVIEW", od.1 ++ " object has list view " ++ lv⟩) ++
    od.2.webLinks.map (fun wl =>
      ⟨od.1, wl, "HAS_WEBLINK", od.1 ++ " object has web link " ++ wl⟩))

/-! ## Enhanced parser (`enhanced_metadata_parser.py` 222-279) -/

/-- A field as consumed by `analyze_cross_object_relationships`. -/
structure EField where
  name : String
  ftype : String
deriving Repr, DecidableEq

/-- An object as consumed by `analyze_cross_object_relationships`. -/
structure EObjData where
  name : String
  fields : List EField
deriving Repr, DecidableEq

/-- Model of `analyze_cross_object_relationships` (lines 222-279): after the fixed
standard block, a lookup-shaped field produces an edge only when named
exactly `AccountId` or `ContactId`. -/
def analyze_cross_object_relationships (objects_data : List EObjData) : List CEdge :=
  standard_relationships ++
  objects_data.flatMap (fun od =>
    od.fields.filterMap (fun field =>
      if field.ftype ∈ ["Lookup", "MasterDetail"] ∨ endsWithS field.name "Id" = true then
        if field.name = "AccountId" then
          some ⟨od.name, "Account", "LOOKUP_TO", od.name ++ "." ++ field.name ++ " field"⟩
        else if field.name = "ContactId" then
          some ⟨od.name, "Contact", "LOOKUP_TO", od.name ++ "." ++ field.name ++ " field"⟩
        else Option.none
      else Option.none))

/-! ## Concrete inputs used by individual claims -/

/-- Scenario A trigger source text. -/
def trigSrcA : List Char :=
  "trigger T on Account (before insert) \x7b AccountHandler.run(); \x7d".toList

/-- Scenario A trigger file, named `T`, no companion meta file. -/
def trigFileA : CodeFile := ⟨"T", trigSrcA, Option.none⟩

/-- A class whose source calls two methods of the same class. -/
def dupTree : SourceTree :=
  ⟨[], [], [⟨"X", "class X \x7b Foo.bar(); Foo.baz(); \x7d".toList, Option.none⟩], [], []⟩

/-- A source text whose typed-collection declaration mentions a built-in. -/
def denySrc : List Char := "List<String> x;".toList

/-- A source text matching no extraction pattern at all. -/
def blandSrc : List Char := "hello".toList

/-- A self-loop edge: both endpoints are the entity `a`. -/
def selfLoopEdge : Edge := ⟨"a", "a", "T", Option.none⟩

/-- An enhanced-parser object whose lookup field strips to a known object
name that is neither `AccountId` nor `ContactId`. -/
def enhCexData : List EObjData := [⟨"Account", [⟨"OpportunityId", "Lookup"⟩]⟩]

/-- Scenario B input for the comprehensive parser: `AccountId` on `Contact`. -/
def scenBData : List (String × CObjData) :=
  [("Contact", ⟨[⟨"AccountId", Option.none⟩], [], []⟩)]

/-- Scenario B input for the enhanced parser. -/
def scenBEnhData : List EObjData := [⟨"Contact", [⟨"AccountId", "Lookup"⟩]⟩]

/-- The nine category keys of the spec's category set. -/
def categoryKeys : List String :=
  ["objects", "classes", "fields", "methods", "custom_settings",
   "web_services", "email_templates", "custom_labels", "static_resources"]

/-- A trigger file whose source does not match the header pattern. -/
def badHeaderTrig : CodeFile := ⟨"T", "hello world".toList, Option.none⟩

/-- Well-formedness of a definition file (its parse succeeded). -/
def okFile (f : XFile) : Bool :=
  match f.content with
  | .ok _ => true
  | .error _ => false

/-- Well-formedness of a code file's companion meta file (absent counts as
fine; only a failing parse raises). -/
def okMeta (f : CodeFile) : Bool :=
  match f.meta with
  | some (.error _) => false
  | _ => true

/-- Did the object definition file itself parse (this is what bumps
`objects_processed`)? -/
def okObjFile (d : ObjectDir) : Bool :=
  match d.objectFile with
  | some (.ok _) => true
  | _ => false

/-- Is the object definition file present but malformed (this records one
error)? -/
def badObjFile (d : ObjectDir) : Bool :=
  match d.objectFile with
  | some (.error _) => true
  | _ => false

/-- Errors contributed by one object directory: its own definition file plus
its malformed sub-files. -/
def objDirErrors (d : ObjectDir) : Nat :=
  (if badObjFile d then 1 else 0) + d.fieldFiles.countP (fun f => !okFile f) +
  d.listViewFiles.countP (fun f => !okFile f) +
  d.webLinkFiles.countP (fun f => !okFile f)

/-- Total number of malformed files in an input tree. -/
def treeErrors (t : SourceTree) : Nat :=
  (t.objects.map objDirErrors).sum + t.layouts.countP (fun f => !okFile f) +
  t.classes.countP (fun f => !okMeta f) + t.triggers.countP (fun f => !okMeta f) +
  t.workflows.countP (fun f => !okFile f)

/-! ## Shared helper lemmas -/

/-- Filtering a mapped list by a predicate false on every image gives `[]`. -/
theorem filter_map_const_neg {α β : Type} (f : α → β) (p : β → Bool) (l : List α)
    (h : ∀ x, p (f x) = false) : (l.map f).filter p = [] := by
  induction l with
  | nil => rfl
  | cons x xs ih => simp [List.filter, h x, ih]

/-- Filtering a mapped list by a predicate true on every image keeps it. -/
theorem filter_map_const_pos {α β : Type} (f : α → β) (p : β → Bool) (l : List α)
    (h : ∀ x, p (f x) = true) : (l.map f).filter p = l.map f := by
  induction l with
  | nil => rfl
  | cons x xs ih => simp [List.filter, h x, ih]

/-- Filtering a `filterMap` by a predicate false on everything produced
gives `[]`. -/
theorem filter_filterMap_neg {α β : Type} (g : α → Option β) (p : β → Bool)
    (l : List α) (h : ∀ x e, g x = some e → p e = false) :
    (l.filterMap g).filter p = [] := by
  induction l with
  | nil => rfl
  | cons x xs ih =>
    cases hg : g x with
    | none => simp [List.filterMap_cons, hg, ih]
    | some e => simp [List.filterMap_cons, hg, List.filter, h x e hg, ih]

/-- Filtering a `filterMap` by a predicate true on everything produced keeps
it whole. -/
theorem filter_filterMap_pos {α β : Type} (g : α → Option β) (p : β → Bool)
    (l : List α) (h : ∀ x e, g x = some e → p e = true) :
    (l.filterMap g).filter p = l.filterMap g := by
  induction l with
  | nil => rfl
  | cons x xs ih =>
    cases hg : g x with
    | none => simp [List.filterMap_cons, hg, ih]
    | some e => simp [List.filterMap_cons, hg, List.filter, h x e hg, ih]

/-- A guarded `filterMap` is a filter followed by a map. -/
theorem filterMap_ite_eq_map_filter {α β : Type} (q : α → Bool) (f : α → β)
    (l : List α) :
    (l.filterMap (fun x => if q x then some (f x) else Option.none)) =
      (l.filter q).map f := by
  induction l with
  | nil => rfl
  | cons x xs ih =>
    by_cases hq : q x = true
    · simp [List.filterMap_cons, List.filter, hq, ih]
    · simp only [Bool.not_eq_true] at hq
      simp [List.filterMap_cons, List.filter, hq, ih]

/-- Model of `List.lookup` through a value-mapping of an association list. -/
theorem lookup_map_snd {α β γ : Type} [BEq α] (g : β → γ) (l : List (α × β))
    (k : α) :
    (l.map (fun p => (p.1, g p.2))).lookup k = (l.lookup k).map g := by
  induction l with
  | nil => rfl
  | cons x xs ih =>
    by_cases hk : (k == x.1) = true
    · simp [List.lookup, hk]
    · simp only [Bool.not_eq_true] at hk
      simp [List.lookup, hk, ih]

/-- A `filterMap` guarded by a decidable proposition is a filter then a map. -/
theorem filterMap_dguard_eq_map_filter {α β : Type} (q : α → Prop) [DecidablePred q]
    (f : α → β) (l : List α) :
    (l.filterMap (fun x => if q x then some (f x) else Option.none)) =
      (l.filter (fun x => decide (q x))).map f := by
  induction l with
  | nil => rfl
  | cons x xs ih =>
    by_cases hq : q x
    · simp [List.filterMap_cons, List.filter, hq, ih]
    · simp [List.filterMap_cons, List.filter, hq, ih]

/-- Unfolded characterization of the `generate_impact_analysis` fold. -/
theorem gia_fold (cid : String) (rels : List Edge)
    (acc : List ImpactAffectedBy × List ImpactAffects) :
    rels.foldl
      (fun acc rel =>
        if rel.fromId = cid then
          (acc.1, acc.2 ++ [⟨rel.toId, rel.rtype, rel.details.getD ""⟩])
        else if rel.toId = cid then
          (acc.1 ++ [⟨rel.fromId, rel.rtype, rel.details.getD ""⟩], acc.2)
        else acc)
      acc =
    (acc.1 ++ (rels.filter (fun r => r.toId == cid && !(r.fromId == cid))).map
        (fun r => ⟨r.fromId, r.rtype, r.details.getD ""⟩),
     acc.2 ++ (rels.filter (fun r => r.fromId == cid)).map
        (fun r => ⟨r.toId, r.rtype, r.details.getD ""⟩)) := by
  induction rels generalizing acc with
  | nil => simp
  | cons r rs ih =>
    by_cases h1 : r.fromId = cid
    · simp [List.foldl_cons, h1, ih, List.filter_cons]
    · by_cases h2 : r.toId = cid
      · simp [List.foldl_cons, h1, h2, ih, List.filter_cons]
      · simp [List.foldl_cons, h1, h2, ih, List.filter_cons]

/-- C4 (amended): for every edge collection `E` and entity id `X`, impact
analysis returns as outgoing exactly the edges of `E` with `from = X`, and as
incoming exactly the edges of `E` with `to = X` **whose `from` differs from
`X`** (the `elif` drops self-loops from the incoming set); in particular an id
appearing in no edge yields two empty lists, and nothing beyond one hop is
returned. -/
theorem C4_impact_analysis_amended (relationships : List Edge) (component_id : String) :
    generate_impact_analysis relationships component_id =
      ((relationships.filter
          (fun r => r.toId == component_id && !(r.fromId == component_id))).map
          (fun r => ⟨r.fromId, r.rtype, r.details.getD ""⟩),
       (relationships.filter (fun r => r.fromId == component_id)).map
          (fun r => ⟨r.toId, r.rtype, r.details.getD ""⟩)) := by
  unfold generate_impact_analysis
  rw [gia_fold]
  simp

/-- C4 (counterexample): the claim "impact analysis returns exactly the edges
of `E` whose `to` field equals `X`" fails at the self-loop edge
`(a, a, T)`: its `to` equals `a`, yet the returned `affected_by` list is
empty. -/
theorem C4_impact_analysis_cex :
    selfLoopEdge.toId = "a" ∧
      (generate_impact_analysis [selfLoopEdge] "a").1 = [] := by
  constructor
  · rfl
  · rfl

/-- C6 (confirmed): for a trigger with owning object `O`, the synthesizer
emits one `AFFECTS_OBJECT` edge per extracted object other than `O` itself,
and for a class one `USES_OBJECT` edge per extracted object with no
exclusion. -/
theorem C6_affects_uses_object (deps : List (String × List String))
    (tid cid O : String) :
    ((_create_trigger_relationships tid deps (some O)).filter
        (fun e => e.rtype == "AFFECTS_OBJECT")) =
      ((getCat deps "objects").filter (fun obj => !(obj == O))).map
        (affectsObjectEdge tid) ∧
    ((_create_class_relationships cid deps).filter
        (fun e => e.rtype == "USES_OBJECT")) =
      (getCat deps "objects").map (usesObjectEdge cid) := by
  constructor
  · have hc : ((getCat deps "classes").map (triggerClassEdge tid)).filter
        (fun e => e.rtype == "AFFECTS_OBJECT") = [] := by
      apply filter_map_const_neg
      intro x
      unfold triggerClassEdge
      by_cases hx : hasSubstr x "Handler" ∨ hasSubstr x "Helper"
      · simp [hx]
      · simp [hx]
    have hf : ((getCat deps "fields").filterMap (fun field =>
          if hasDot field then some (modifiesFieldEdge tid field)
          else Option.none)).filter (fun e => e.rtype == "AFFECTS_OBJECT") = [] := by
      apply filter_filterMap_neg
      intro x e hg
      split at hg
      · cases hg
        rfl
      · cases hg
    have ho : ((getCat deps "objects").filterMap (fun obj =>
          if some obj ≠ some O then some (affectsObjectEdge tid obj)
          else Option.none)).filter (fun e => e.rtype == "AFFECTS_OBJECT") =
        ((getCat deps "objects").filter (fun obj => !(obj == O))).map
          (affectsObjectEdge tid) := by
      rw [filter_filterMap_pos]
      · rw [filterMap_dguard_eq_map_filter]
        rw [List.filter_congr (q := fun obj => !(obj == O))]
        intro x _
        by_cases h : x = O
        · subst h
          simp
        · simp [h]
      · intro x e hg
        split at hg
        · cases hg
          rfl
        · cases hg
    unfold _create_trigger_relationships
    rw [List.filter_append, List.filter_append, hc, hf, ho]
    simp
  · have h1 : ((getCat deps "objects").map (usesObjectEdge cid)).filter
        (fun e => e.rtype == "USES_OBJECT") =
        (getCat deps "objects").map (usesObjectEdge cid) :=
      filter_map_const_pos _ _ _ (fun x => rfl)
    have h2 : ((getCat deps "classes").map (dependsOnClassEdge cid)).filter
        (fun e => e.rtype == "USES_OBJECT") = [] :=
      filter_map_const_neg _ _ _ (fun x => rfl)
    have h3 : ((getCat deps "fields").filterMap (fun field =>
          if hasDot field then some (accessesFieldEdge cid field)
          else Option.none)).filter (fun e => e.rtype == "USES_OBJECT") = [] := by
      apply filter_filterMap_neg
      intro x e hg
      split at hg
      · cases hg
        rfl
      · cases hg
    have h4 : ((getCat deps "methods").filterMap (fun m =>
          if hasDot m then some (callsMethodEdge cid m)
          else Option.none)).filter (fun e => e.rtype == "USES_OBJECT") = [] := by
      apply filter_filterMap_neg
      intro x e hg
      split at hg
      · cases hg
        rfl
      · cases hg
    have h5 : ((getCat deps "custom_settings").map (usesCustomSettingEdge cid)).filter
        (fun e => e.rtype == "USES_OBJECT") = [] :=
      filter_map_const_neg _ _ _ (fun x => rfl)
    have h6 : ((getCat deps "web_services").filterMap (fun svc =>
          if startsWithS svc "http" then some (callsWebserviceEdge cid svc)
          else Option.none)).filter (fun e => e.rtype == "USES_OBJECT") = [] := by
      apply filter_filterMap_neg
      intro x e hg
      split at hg
      · cases hg
        rfl
      · cases hg
    have h7 : ((getCat deps "email_templates").map (usesEmailTemplateEdge cid)).filter
        (fun e => e.rtype == "USES_OBJECT") = [] :=
      filter_map_const_neg _ _ _ (fun x => rfl)
    have h8 : ((getCat deps "custom_labels").map (usesCustomLabelEdge cid)).filter
        (fun e => e.rtype == "USES_OBJECT") = [] :=
      filter_map_const_neg _ _ _ (fun x => rfl)
    have h9 : ((getCat deps "static_resources").map (usesStaticResourceEdge cid)).filter
        (fun e => e.rtype == "USES_OBJECT") = [] :=
      filter_map_const_neg _ _ _ (fun x => rfl)
    unfold _create_class_relationships
    repeat rw [List.filter_append]
    rw [h1, h2, h3, h4, h5, h6, h7, h8, h9]
    simp

/-- C9 (confirmed): `ACCESSES_FIELD` (class) and `MODIFIES_FIELD` (trigger)
edges are synthesized exactly from the entries of the `fields` category that
contain a dot separator; a bare field name (as produced by the dotted
assignment/comparison and dynamic get/put patterns, which capture only the
field identifier) yields no edge at all. -/
theorem C9_dotted_fields_only (deps : List (String × List String))
    (cid tid : String) (tobj : Option String) :
    ((_create_class_relationships cid deps).filter
        (fun e => e.rtype == "ACCESSES_FIELD")) =
      ((getCat deps "fields").filter (fun f => hasDot f)).map
        (accessesFieldEdge cid) ∧
    ((_create_trigger_relationships tid deps tobj).filter
        (fun e => e.rtype == "MODIFIES_FIELD")) =
      ((getCat deps "fields").filter (fun f => hasDot f)).map
        (modifiesFieldEdge tid) := by
  constructor
  · have h1 : ((getCat deps "objects").map (usesObjectEdge cid)).filter
        (fun e => e.rtype == "ACCESSES_FIELD") = [] :=
      filter_map_const_neg _ _ _ (fun x => rfl)
    have h2 : ((getCat deps "classes").map (dependsOnClassEdge cid)).filter
        (fun e => e.rtype == "ACCESSES_FIELD") = [] :=
      filter_map_const_neg _ _ _ (fun x => rfl)
    have h3 : ((getCat deps "fields").filterMap (fun field =>
          if hasDot field then some (accessesFieldEdge cid field)
          else Option.none)).filter (fun e => e.rtype == "ACCESSES_FIELD") =
        ((getCat deps "fields").filter (fun f => hasDot f)).map
          (accessesFieldEdge cid) := by
      rw [filter_filterMap_pos]
      · exact filterMap_ite_eq_map_filter _ _ _
      · intro x e hg
        split at hg
        · cases hg
          rfl
        · cases hg
    have h4 : ((getCat deps "methods").filterMap (fun m =>
          if hasDot m then some (callsMethodEdge cid m)
          else Option.none)).filter (fun e => e.rtype == "ACCESSES_FIELD") = [] := by
      apply filter_filterMap_neg
      intro x e hg
      split at hg
      · cases hg
        rfl
      · cases hg
    have h5 : ((getCat deps "custom_settings").map (usesCustomSettingEdge cid)).filter
        (fun e => e.rtype == "ACCESSES_FIELD") = [] :=
      filter_map_const_neg _ _ _ (fun x => rfl)
    have h6 : ((getCat deps "web_services").filterMap (fun svc =>
          if startsWithS svc "http" then some (callsWebserviceEdge cid svc)
          else Option.none)).filter (fun e => e.rtype == "ACCESSES_FIELD") = [] := by
      apply filter_filterMap_neg
      intro x e hg
      split at hg
      · cases hg
        rfl
      · cases hg
    have h7 : ((getCat deps "email_templates").map (usesEmailTemplateEdge cid)).filter
        (fun e => e.rtype == "ACCESSES_FIELD") = [] :=
      filter_map_const_neg _ _ _ (fun x => rfl)
    have h8 : ((getCat deps "custom_labels").map (usesCustomLabelEdge cid)).filter
        (fun e => e.rtype == "ACCESSES_FIELD") = [] :=
      filter_map_const_neg _ _ _ (fun x => rfl)
    have h9 : ((getCat deps "static_resources").map (usesStaticResourceEdge cid)).filter
        (fun e => e.rtype == "ACCESSES_FIELD") = [] :=
      filter_map_const_neg _ _ _ (fun x => rfl)
    unfold _create_class_relationships
    repeat rw [List.filter_append]
    rw [h1, h2, h3, h4, h5, h6, h7, h8, h9]
    simp
  · have hc : ((getCat deps "classes").map (triggerClassEdge tid)).filter
        (fun e => e.rtype == "MODIFIES_FIELD") = [] := by
      apply filter_map_const_neg
      intro x
      unfold triggerClassEdge
      by_cases hx : hasSubstr x "Handler" ∨ hasSubstr x "Helper"
      · simp [hx]
      · simp [hx]
    have ho : ((getCat deps "objects").filterMap (fun obj =>
          if some obj ≠ tobj then some (affectsObjectEdge tid obj)
          else Option.none)).filter (fun e => e.rtype == "MODIFIES_FIELD") = [] := by
      apply filter_filterMap_neg
      intro x e hg
      split at hg
      · cases hg
        rfl
      · cases hg
    have hf : ((getCat deps "fields").filterMap (fun field =>
          if hasDot field then some (modifiesFieldEdge tid field)
          else Option.none)).filter (fun e => e.rtype == "MODIFIES_FIELD") =
        ((getCat deps "fields").filter (fun f => hasDot f)).map
          (modifiesFieldEdge tid) := by
      rw [filter_filterMap_pos]
      · exact filterMap_ite_eq_map_filter _ _ _
      · intro x e hg
        split at hg
        · cases hg
          rfl
        · cases hg
    unfold _create_trigger_relationships
    rw [List.filter_append, List.filter_append, hc, ho, hf]
    simp

/-- C3 (amended): every category list of a returned Dependency Record is
duplicate-free and free of empty or single-character entries; the
`system_classes` denylist, however, is applied only while accumulating the
`classes` (and derived `methods`) category, so that list alone is guaranteed
denylist-free. -/
theorem C3_dedup_filter_amended (src : List Char) (cn ct k : String)
    (vs : List String)
    (h : (k, vs) ∈ extract_comprehensive_dependencies src cn ct) :
    vs.Nodup ∧ (∀ v ∈ vs, 1 < v.length) ∧
      (k = "classes" → ∀ v ∈ vs, v ∉ system_classes) := by
  unfold extract_comprehensive_dependencies at h
  rw [List.mem_map] at h
  obtain ⟨p, hp, heq⟩ := h
  have hk : p.1 = k := congrArg Prod.fst heq
  have hv : dedupClean p.2 = vs := congrArg Prod.snd heq
  subst hv
  refine ⟨List.nodup_dedup _, ?_, ?_⟩
  · intro v hvmem
    have := List.of_mem_filter (List.mem_dedup.mp hvmem)
    simpa using this
  · intro hkc v hvmem
    have hraw : v ∈ p.2 := List.mem_of_mem_filter (List.mem_dedup.mp hvmem)
    have hcl : p.2 = classesRaw src := by
      unfold rawDeps at hp
      rw [hkc] at hk
      simp only [List.mem_cons, List.not_mem_nil, or_false] at hp
      rcases hp with h | h | h | h | h | h | h | h | h | h | h <;>
        (subst h; first | rfl | simp at hk)
    rw [hcl] at hraw
    unfold classesRaw at hraw
    rw [List.mem_append] at hraw
    rcases hraw with h | h
    · rw [List.mem_map] at h
      obtain ⟨q, hq, hqv⟩ := h
      have := List.of_mem_filter hq
      rw [hqv] at this
      simpa using this
    · have := List.of_mem_filter h
      simpa using this

/-- C3 (witness): the amended statement applied to the `classes` list
extracted from the Scenario A trigger source. -/
theorem C3_dedup_filter_amended_witness :
    (("classes", ["AccountHandler"]) ∈
        extract_comprehensive_dependencies trigSrcA "T" "ApexTrigger") ∧
      (["AccountHandler"].Nodup ∧ (∀ v ∈ ["AccountHandler"], 1 < v.length) ∧
        ("classes" = "classes" → ∀ v ∈ ["AccountHandler"], v ∉ system_classes)) :=
  ⟨by decide,
   C3_dedup_filter_amended trigSrcA "T" "ApexTrigger" "classes" ["AccountHandler"]
     (by decide)⟩

/-- C3 (counterexample): the denylist is not applied to the `objects`
category: the source `List<String> x;` puts the built-in `String` into the
returned `objects` list. -/
theorem C3_dedup_filter_cex :
    "String" ∈ getCat (extract_comprehensive_dependencies denySrc "C" "ApexClass")
        "objects" ∧
      "String" ∈ system_classes := by
  constructor
  · decide
  · decide

/-- C8 (confirmed): for every source text, name and kind, the returned
Dependency Record has every key of the category set present (lookup never
fails), and a category whose accumulation stage collected nothing is mapped
to the empty list, never to an absent key. -/
theorem C8_all_categories_present (src : List Char) (cn ct : String) :
    (∀ k ∈ categoryKeys,
      ((extract_comprehensive_dependencies src cn ct).lookup k).isSome = true) ∧
    (∀ k : String, (rawDeps src).lookup k = some [] →
      (extract_comprehensive_dependencies src cn ct).lookup k = some []) := by
  constructor
  · intro k hk
    unfold extract_comprehensive_dependencies
    rw [lookup_map_snd]
    fin_cases hk <;> simp [rawDeps, List.lookup]
  · intro k h
    unfold extract_comprehensive_dependencies
    rw [lookup_map_snd, h]
    rfl

/-- C8 (witness): the no-match source `hello` has every category present and
the `objects` category is the empty list. -/
theorem C8_all_categories_present_witness :
    ("objects" ∈ categoryKeys) ∧
    ((extract_comprehensive_dependencies blandSrc "C" "ApexClass").lookup
        "objects").isSome = true ∧
    ((rawDeps blandSrc).lookup "objects" = some []) ∧
    (extract_comprehensive_dependencies blandSrc "C" "ApexClass").lookup
        "objects" = some [] :=
  ⟨by decide,
   (C8_all_categories_present blandSrc "C" "ApexClass").1 "objects" (by decide),
   by decide,
   (C8_all_categories_present blandSrc "C" "ApexClass").2 "objects" (by decide)⟩

/-- C5 (amended): the comprehensive parser implements the `Id`-suffix lookup
rule against its fixed known-object list (`Account`, `Contact`,
`Opportunity`): a field named `X ++ "Id"` with `X` in that list yields
`LOOKUP_TO(owner -> X)` (for these names the `replace('Id','')` in the source
coincides with stripping the suffix).  The enhanced parser implements it only
for fields named exactly `AccountId` or `ContactId`; the `AccountId` half is
stated here. -/
theorem C5_lookup_amended :
    (∀ (objects_data : List (String × CObjData)) (obj_name : String)
       (od : CObjData) (field : CField) (X : String),
       (obj_name, od) ∈ objects_data → field ∈ od.fields →
       X ∈ ["Account", "Contact", "Opportunity"] → field.name = X ++ "Id" →
       (⟨obj_name, X, "LOOKUP_TO",
          obj_name ++ "." ++ field.name ++ " lookup to " ++ X⟩ : CEdge) ∈
         analyze_comprehensive_relationships objects_data) ∧
    (∀ (objects_data : List EObjData) (od : EObjData) (field : EField),
       od ∈ objects_data → field ∈ od.fields → field.name = "AccountId" →
       (⟨od.name, "Account", "LOOKUP_TO",
          od.name ++ "." ++ field.name ++ " field"⟩ : CEdge) ∈
         analyze_cross_object_relationships objects_data) := by
  constructor
  · intro objects_data obj_name od field X hod hfield hX hname
    unfold analyze_comprehensive_relationships
    rw [List.mem_append]
    right
    rw [List.mem_flatMap]
    refine ⟨(obj_name, od), hod, ?_⟩
    rw [List.mem_append, List.mem_append]
    left
    left
    rw [List.mem_flatMap]
    refine ⟨field, hfield, ?_⟩
    unfold comprehensiveFieldEdges
    rw [List.mem_append]
    right
    fin_cases hX <;>
      (rw [hname]
       rw [if_pos (by constructor <;> decide)]
       rw [if_pos (by decide)]
       simp
       refine ⟨by decide, ?_⟩
       congr 1)
  · intro objects_data od field hod hfield hname
    unfold analyze_cross_object_relationships
    rw [List.mem_append]
    right
    rw [List.mem_flatMap]
    refine ⟨od, hod, ?_⟩
    rw [List.mem_filterMap]
    refine ⟨field, hfield, ?_⟩
    rw [hname]
    rw [if_pos (Or.inr (by decide))]
    rw [if_pos rfl]

/-- C5 (witness): Scenario B in both parsers: a field named `AccountId` on
`Contact` yields `LOOKUP_TO(Contact -> Account)`. -/
theorem C5_lookup_amended_witness :
    ((⟨"Contact", "Account", "LOOKUP_TO",
       "Contact" ++ "." ++ "AccountId" ++ " lookup to " ++ "Account"⟩ : CEdge) ∈
      analyze_comprehensive_relationships scenBData) ∧
    ((⟨"Contact", "Account", "LOOKUP_TO",
       "Contact" ++ "." ++ "AccountId" ++ " field"⟩ : CEdge) ∈
      analyze_cross_object_relationships scenBEnhData) :=
  ⟨C5_lookup_amended.1 scenBData "Contact" ⟨[⟨"AccountId", Option.none⟩], [], []⟩
     ⟨"AccountId", Option.none⟩ "Account" (by decide) (by decide) (by decide)
     (by decide),
   C5_lookup_amended.2 scenBEnhData ⟨"Contact", [⟨"AccountId", "Lookup"⟩]⟩
     ⟨"AccountId", "Lookup"⟩ (by decide) (by decide) (by decide)⟩

/-- C5 (counterexample): in the enhanced parser a field named
`OpportunityId`, whose `Id`-suffix strip `Opportunity` is a known object
name, produces no `LOOKUP_TO` edge at all. -/
theorem C5_lookup_cex :
    ("Opportunity" ++ "Id" = "OpportunityId") ∧
    ("Opportunity" ∈ ["Account", "Contact", "Opportunity"]) ∧
    ((analyze_cross_object_relationships enhCexData).filter
        (fun e => e.rtype == "LOOKUP_TO")) = [] := by
  refine ⟨by decide, by decide, ?_⟩
  decide

/-- C2 (amended): for the Scenario A trigger, the extractor recovers owning
object `Account`, events `["before insert"]`, the class `AccountHandler` and
the method `AccountHandler.run` in the dependency record, and the synthesizer
emits `HAS_TRIGGER(object_Account -> trigger_T)` and
`DELEGATES_TO_HANDLER(trigger_T -> class_AccountHandler)`; the method call
appears only in the dependency record, since trigger synthesis emits no
`CALLS_METHOD` edge. -/
theorem C2_scenario_a_amended :
    ((process_trigger trigFileA initStats []).1.map (·.object?)) =
        some (some "Account") ∧
    ((process_trigger trigFileA initStats []).1.map (·.trigger_events)) =
        some ["before insert"] ∧
    ((process_trigger trigFileA initStats []).1.map (fun td =>
        "AccountHandler" ∈ getCat td.comprehensive_dependencies "classes" ∧
        "AccountHandler.run" ∈ getCat td.comprehensive_dependencies "methods")) =
      some True ∧
    (⟨"object_Account", "trigger_T", "HAS_TRIGGER",
       some "Trigger events: before insert"⟩ : Edge) ∈
      (process_trigger trigFileA initStats []).2.2 ∧
    (⟨"trigger_T", "class_AccountHandler", "DELEGATES_TO_HANDLER",
       some "Trigger delegates business logic to handler class"⟩ : Edge) ∈
      (process_trigger trigFileA initStats []).2.2 := by
  refine ⟨?_, ?_, ?_, ?_, ?_⟩
  · rfl
  · rfl
  · have : ((process_trigger trigFileA initStats []).1.map (fun td =>
        "AccountHandler" ∈ getCat td.comprehensive_dependencies "classes" ∧
        "AccountHandler.run" ∈ getCat td.comprehensive_dependencies "methods")) =
        some ("AccountHandler" ∈ ["AccountHandler"] ∧
          "AccountHandler.run" ∈ ["AccountHandler.run"]) := by rfl
    rw [this]
    simp
  · decide
  · decide

/-- C2 (counterexample): processing the Scenario A trigger emits no
`CALLS_METHOD` edge at all, contrary to the claimed
`CALLS_METHOD(trigger_T -> class_AccountHandler)`. -/
theorem C2_scenario_a_cex :
    ((process_trigger trigFileA initStats []).2.2.filter
        (fun e => e.rtype == "CALLS_METHOD")) = [] := by
  decide

/-- C10 (confirmed): a trigger whose source does not match the header pattern
is still returned and counted, carries no owning object, keeps an empty event
list, adds no `HAS_TRIGGER` edge, and records no error. -/
theorem C10_headerless_trigger (f : CodeFile) (st : Stats) (rels : List Edge)
    (hm : okMeta f = true)
    (h : extract_trigger_object f.source = Option.none) :
    ((process_trigger f st rels).1.map (·.object?)) = some Option.none ∧
    ((process_trigger f st rels).1.map (·.trigger_events)) = some [] ∧
    (process_trigger f st rels).2.1.triggers_processed =
        st.triggers_processed + 1 ∧
    (process_trigger f st rels).2.1.errors = st.errors ∧
    ((process_trigger f st rels).2.2.filter (fun e => e.rtype == "HAS_TRIGGER")) =
      (rels.filter (fun e => e.rtype == "HAS_TRIGGER")) := by
  obtain ⟨fname, fsrc, fmeta⟩ := f
  have hrest : ((_create_trigger_relationships ("trigger_" ++ fname)
      (extract_comprehensive_dependencies fsrc fname "ApexTrigger")
      Option.none).filter (fun e => e.rtype == "HAS_TRIGGER")) = [] := by
    unfold _create_trigger_relationships
    rw [List.filter_append, List.filter_append]
    rw [filter_map_const_neg]
    · rw [filter_filterMap_neg (p := fun e => e.rtype == "HAS_TRIGGER")
          (g := fun obj =>
            if some obj ≠ (Option.none : Option String) then
              some (affectsObjectEdge ("trigger_" ++ fname) obj)
            else Option.none)]
      · rw [filter_filterMap_neg (p := fun e => e.rtype == "HAS_TRIGGER")
            (g := fun field =>
              if hasDot field then
                some (modifiesFieldEdge ("trigger_" ++ fname) field)
              else Option.none)]
        · rfl
        · intro x e hg
          split at hg
          · cases hg
            rfl
          · cases hg
      · intro x e hg
        split at hg
        · cases hg
          rfl
        · cases hg
    · intro x
      unfold triggerClassEdge
      by_cases hx : hasSubstr x "Handler" ∨ hasSubstr x "Helper"
      · simp [hx]
      · simp [hx]
  simp only at h
  match fmeta with
  | some (.error e) => simp [okMeta] at hm
  | some (.ok root) =>
    simp only [process_trigger, h]
    refine ⟨rfl, rfl, trivial, trivial, ?_⟩
    rw [List.filter_append, hrest]
    simp
  | Option.none =>
    simp only [process_trigger, h]
    refine ⟨rfl, rfl, trivial, trivial, ?_⟩
    rw [List.filter_append, hrest]
    simp

/-- C10 (witness): the concrete trigger file with source `hello world`. -/
theorem C10_headerless_trigger_witness :
    (okMeta badHeaderTrig = true) ∧
    (extract_trigger_object badHeaderTrig.source = Option.none) ∧
    (((process_trigger badHeaderTrig initStats []).1.map (·.object?)) =
        some Option.none ∧
      ((process_trigger badHeaderTrig initStats []).1.map (·.trigger_events)) =
        some [] ∧
      (process_trigger badHeaderTrig initStats []).2.1.triggers_processed =
        initStats.triggers_processed + 1 ∧
      (process_trigger badHeaderTrig initStats []).2.1.errors = initStats.errors ∧
      ((process_trigger badHeaderTrig initStats []).2.2.filter
          (fun e => e.rtype == "HAS_TRIGGER")) =
        (([] : List Edge).filter (fun e => e.rtype == "HAS_TRIGGER"))) :=
  ⟨by decide, by decide,
   C10_headerless_trigger badHeaderTrig initStats [] (by decide) (by decide)⟩

/-- Left-cancellation of string concatenation. -/
theorem string_append_cancel_left (a b c : String) (h : a ++ b = a ++ c) :
    b = c := by
  obtain ⟨la⟩ := a
  obtain ⟨lb⟩ := b
  obtain ⟨lc⟩ := c
  simp [String.ext_iff] at h ⊢
  exact h

/-- The `USES_OBJECT` edges of one class pass are exactly one per entry of
the deduplicated `objects` category. -/
theorem class_rels_filter_uses (deps : List (String × List String))
    (cid : String) :
    ((_create_class_relationships cid deps).filter
        (fun e => e.rtype == "USES_OBJECT")) =
      (getCat deps "objects").map (usesObjectEdge cid) := by
  have h1 : ((getCat deps "objects").map (usesObjectEdge cid)).filter
      (fun e => e.rtype == "USES_OBJECT") =
      (getCat deps "objects").map (usesObjectEdge cid) :=
    filter_map_const_pos _ _ _ (fun x => rfl)
  have h2 : ((getCat deps "classes").map (dependsOnClassEdge cid)).filter
      (fun e => e.rtype == "USES_OBJECT") = [] :=
    filter_map_const_neg _ _ _ (fun x => rfl)
  have h3 : ((getCat deps "fields").filterMap (fun field =>
        if hasDot field then some (accessesFieldEdge cid field)
        else Option.none)).filter (fun e => e.rtype == "USES_OBJECT") = [] := by
    apply filter_filterMap_neg
    intro x e hg
    split at hg
    · cases hg
      rfl
    · cases hg
  have h4 : ((getCat deps "methods").filterMap (fun m =>
        if hasDot m then some (callsMethodEdge cid m)
        else Option.none)).filter (fun e => e.rtype == "USES_OBJECT") = [] := by
    apply filter_filterMap_neg
    intro x e hg
    split at hg
    · cases hg
      rfl
    · cases hg
  have h5 : ((getCat deps "custom_settings").map (usesCustomSettingEdge cid)).filter
      (fun e => e.rtype == "USES_OBJECT") = [] :=
    filter_map_const_neg _ _ _ (fun x => rfl)
  have h6 : ((getCat deps "web_services").filterMap (fun svc =>
        if startsWithS svc "http" then some (callsWebserviceEdge cid svc)
        else Option.none)).filter (fun e => e.rtype == "USES_OBJECT") = [] := by
    apply filter_filterMap_neg
    intro x e hg
    split at hg
    · cases hg
      rfl
    · cases hg
  have h7 : ((getCat deps "email_templates").map (usesEmailTemplateEdge cid)).filter
      (fun e => e.rtype == "USES_OBJECT") = [] :=
    filter_map_const_neg _ _ _ (fun x => rfl)
  have h8 : ((getCat deps "custom_labels").map (usesCustomLabelEdge cid)).filter
      (fun e => e.rtype == "USES_OBJECT") = [] :=
    filter_map_const_neg _ _ _ (fun x => rfl)
  have h9 : ((getCat deps "static_resources").map (usesStaticResourceEdge cid)).filter
      (fun e => e.rtype == "USES_OBJECT") = [] :=
    filter_map_const_neg _ _ _ (fun x => rfl)
  unfold _create_class_relationships
  repeat rw [List.filter_append]
  rw [h1, h2, h3, h4, h5, h6, h7, h8, h9]
  simp

/-- The `DEPENDS_ON_CLASS` edges of one class pass are exactly one per entry
of the deduplicated `classes` category. -/
theorem class_rels_filter_depends (deps : List (String × List String))
    (cid : String) :
    ((_create_class_relationships cid deps).filter
        (fun e => e.rtype == "DEPENDS_ON_CLASS")) =
      (getCat deps "classes").map (dependsOnClassEdge cid) := by
  have h1 : ((getCat deps "objects").map (usesObjectEdge cid)).filter
      (fun e => e.rtype == "DEPENDS_ON_CLASS") = [] :=
    filter_map_const_neg _ _ _ (fun x => rfl)
  have h2 : ((getCat deps "classes").map (dependsOnClassEdge cid)).filter
      (fun e => e.rtype == "DEPENDS_ON_CLASS") =
      (getCat deps "classes").map (dependsOnClassEdge cid) :=
    filter_map_const_pos _ _ _ (fun x => rfl)
  have h3 : ((getCat deps "fields").filterMap (fun field =>
        if hasDot field then some (accessesFieldEdge cid field)
        else Option.none)).filter (fun e => e.rtype == "DEPENDS_ON_CLASS") = [] := by
    apply filter_filterMap_neg
    intro x e hg
    split at hg
    · cases hg
      rfl
    · cases hg
  have h4 : ((getCat deps "methods").filterMap (fun m =>
        if hasDot m then some (callsMethodEdge cid m)
        else Option.none)).filter (fun e => e.rtype == "DEPENDS_ON_CLASS") = [] := by
    apply filter_filterMap_neg
    intro x e hg
    split at hg
    · cases hg
      rfl
    · cases hg
  have h5 : ((getCat deps "custom_settings").map (usesCustomSettingEdge cid)).filter
      (fun e => e.rtype == "DEPENDS_ON_CLASS") = [] :=
    filter_map_const_neg _ _ _ (fun x => rfl)
  have h6 : ((getCat deps "web_services").filterMap (fun svc =>
        if startsWithS svc "http" then some (callsWebserviceEdge cid svc)
        else Option.none)).filter (fun e => e.rtype == "DEPENDS_ON_CLASS") = [] := by
    apply filter_filterMap_neg
    intro x e hg
    split at hg
    · cases hg
      rfl
    · cases hg
  have h7 : ((getCat deps "email_templates").map (usesEmailTemplateEdge cid)).filter
      (fun e => e.rtype == "DEPENDS_ON_CLASS") = [] :=
    filter_map_const_neg _ _ _ (fun x => rfl)
  have h8 : ((getCat deps "custom_labels").map (usesCustomLabelEdge cid)).filter
      (fun e => e.rtype == "DEPENDS_ON_CLASS") = [] :=
    filter_map_const_neg _ _ _ (fun x => rfl)
  have h9 : ((getCat deps "static_resources").map (usesStaticResourceEdge cid)).filter
      (fun e => e.rtype == "DEPENDS_ON_CLASS") = [] :=
    filter_map_const_neg _ _ _ (fun x => rfl)
  unfold _create_class_relationships
  repeat rw [List.filter_append]
  rw [h1, h2, h3, h4, h5, h6, h7, h8, h9]
  simp

/-- C1 (amended): the accumulated edge list is not globally deduplicated on
`(from, to, type)` (see the counterexample); what does hold is per-category
set semantics: each category list of a Dependency Record is deduplicated
before synthesis, so within one class pass the `USES_OBJECT` edges carry
pairwise distinct `(from, to, type)` triples, and likewise the
`DEPENDS_ON_CLASS` edges. -/
theorem C1_edge_set_amended (src : List Char) (cn cid : String) :
    (getCat (extract_comprehensive_dependencies src cn "ApexClass")
        "objects").Nodup ∧
    (getCat (extract_comprehensive_dependencies src cn "ApexClass")
        "classes").Nodup ∧
    ((((_create_class_relationships cid
          (extract_comprehensive_dependencies src cn "ApexClass")).filter
        (fun e => e.rtype == "USES_OBJECT")).map
        (fun e => (e.fromId, e.toId, e.rtype))).Nodup) ∧
    ((((_create_class_relationships cid
          (extract_comprehensive_dependencies src cn "ApexClass")).filter
        (fun e => e.rtype == "DEPENDS_ON_CLASS")).map
        (fun e => (e.fromId, e.toId, e.rtype))).Nodup) := by
  have hobj : getCat (extract_comprehensive_dependencies src cn "ApexClass")
      "objects" = dedupClean (soqlObjects src ++ dmlObjects src) := by
    simp [getCat, extract_comprehensive_dependencies, lookup_map_snd, rawDeps,
      List.lookup]
  have hcls : getCat (extract_comprehensive_dependencies src cn "ApexClass")
      "classes" = dedupClean (classesRaw src) := by
    simp [getCat, extract_comprehensive_dependencies, lookup_map_snd, rawDeps,
      List.lookup]
  have hobjnd : (getCat (extract_comprehensive_dependencies src cn "ApexClass")
      "objects").Nodup := by
    rw [hobj]
    exact List.nodup_dedup _
  have hclsnd : (getCat (extract_comprehensive_dependencies src cn "ApexClass")
      "classes").Nodup := by
    rw [hcls]
    exact List.nodup_dedup _
  refine ⟨hobjnd, hclsnd, ?_, ?_⟩
  · rw [class_rels_filter_uses, List.map_map]
    apply List.Nodup.map _ hobjnd
    intro a b hab
    simp [Function.comp, usesObjectEdge, Prod.ext_iff] at hab
    exact string_append_cancel_left _ _ _ hab
  · rw [class_rels_filter_depends, List.map_map]
    apply List.Nodup.map _ hclsnd
    intro a b hab
    simp [Function.comp, dependsOnClassEdge, Prod.ext_iff] at hab
    exact string_append_cancel_left _ _ _ hab

/-- C1 (counterexample): running the pipeline over one class whose source
calls `Foo.bar()` and `Foo.baz()` yields two `CALLS_METHOD` edges with the
identical `(from, to, type)` triple, so the synthesized edge collection is
not a set over those triples. -/
theorem C1_edge_set_cex :
    ¬ (((convert_all_metadata dupTree).2.2.map
        (fun e => (e.fromId, e.toId, e.rtype))).Nodup) := by
  decide

/-- Stats effect of the field loop: one count per well-formed file, one error
per malformed file, all other counters untouched. -/
theorem processFieldFiles_stats (fs : List XFile) (objName oid : String)
    (st : Stats) (rels : List Edge) :
    (processFieldFiles fs objName oid st rels).2.1 =
      { st with
        fields_processed := st.fields_processed + fs.countP okFile,
        errors := st.errors ++ fs.flatMap (fun f =>
          match f.content with
          | .ok _ => []
          | .error e => ["Error processing field " ++ f.name ++ ": " ++ e]) } := by
  induction fs generalizing st rels with
  | nil =>
    obtain ⟨so, sf, sl, sc, st2, sw, se⟩ := st
    simp [processFieldFiles]
  | cons f fs ih =>
    cases hf : f.content with
    | ok root =>
      have hok : okFile f = true := by simp [okFile, hf]
      simp only [processFieldFiles, process_field, hf]
      rcases hrec : processFieldFiles fs objName oid
          { st with fields_processed := st.fields_processed + 1 }
          (rels ++ [⟨oid, "field_" ++ objName ++ "_" ++ f.name, "HAS_FIELD",
            Option.none⟩]) with ⟨rest, st2, rels2⟩
      have := ih { st with fields_processed := st.fields_processed + 1 }
        (rels ++ [⟨oid, "field_" ++ objName ++ "_" ++ f.name, "HAS_FIELD",
          Option.none⟩])
      rw [hrec] at this
      simp only [hrec]
      rw [show ((f :: fs).countP okFile) = fs.countP okFile + 1 by
        simp [List.countP_cons, hok]]
      simp only [Prod.fst, Prod.snd] at this
      rw [this]
      obtain ⟨so, sf, sl, sc, stt, sw, se⟩ := st
      simp [hf]
      omega
    | error e =>
      have hok : okFile f = false := by simp [okFile, hf]
      simp only [processFieldFiles, process_field, hf]
      rw [ih]
      obtain ⟨so, sf, sl, sc, stt, sw, se⟩ := st
      simp [List.countP_cons, hok, hf]

/-- Stats effect of the list-view loop: errors only (no counter exists). -/
theorem processListViewFiles_stats (fs : List XFile) (objName oid : String)
    (st : Stats) (rels : List Edge) :
    (processListViewFiles fs objName oid st rels).2.1 =
      { st with
        errors := st.errors ++ fs.flatMap (fun f =>
          match f.content with
          | .ok _ => []
          | .error e => ["Error processing listview " ++ f.name ++ ": " ++ e]) } := by
  induction fs generalizing st rels with
  | nil =>
    obtain ⟨so, sf, sl, sc, st2, sw, se⟩ := st
    simp [processListViewFiles]
  | cons f fs ih =>
    cases hf : f.content with
    | ok root =>
      simp only [processListViewFiles, process_listview, hf]
      rcases hrec : processListViewFiles fs objName oid st
          (rels ++ [⟨oid, "listview_" ++ objName ++ "_" ++ f.name, "HAS_LISTVIEW",
            Option.none⟩]) with ⟨rest, st2, rels2⟩
      have := ih st
        (rels ++ [⟨oid, "listview_" ++ objName ++ "_" ++ f.name, "HAS_LISTVIEW",
          Option.none⟩])
      rw [hrec] at this
      simp only [Prod.fst, Prod.snd] at this
      simp only [hrec]
      rw [this]
      obtain ⟨so, sf, sl, sc, stt, sw, se⟩ := st
      simp [hf]
    | error e =>
      simp only [processListViewFiles, process_listview, hf]
      rw [ih]
      obtain ⟨so, sf, sl, sc, stt, sw, se⟩ := st
      simp [hf]

/-- Stats effect of the web-link loop: errors only (no counter exists). -/
theorem processWebLinkFiles_stats (fs : List XFile) (objName oid : String)
    (st : Stats) (rels : List Edge) :
    (processWebLinkFiles fs objName oid st rels).2.1 =
      { st with
        errors := st.errors ++ fs.flatMap (fun f =>
          match f.content with
          | .ok _ => []
          | .error e => ["Error processing weblink " ++ f.name ++ ": " ++ e]) } := by
  induction fs generalizing st rels with
  | nil =>
    obtain ⟨so, sf, sl, sc, st2, sw, se⟩ := st
    simp [processWebLinkFiles]
  | cons f fs ih =>
    cases hf : f.content with
    | ok root =>
      simp only [processWebLinkFiles, process_weblink, hf]
      rcases hrec : processWebLinkFiles fs objName oid st
          (rels ++ [⟨oid, "weblink_" ++ objName ++ "_" ++ f.name, "HAS_WEBLINK",
            Option.none⟩]) with ⟨rest, st2, rels2⟩
      have := ih st
        (rels ++ [⟨oid, "weblink_" ++ objName ++ "_" ++ f.name, "HAS_WEBLINK",
          Option.none⟩])
      rw [hrec] at this
      simp only [Prod.fst, Prod.snd] at this
      simp only [hrec]
      rw [this]
      obtain ⟨so, sf, sl, sc, stt, sw, se⟩ := st
      simp [hf]
    | error e =>
      simp only [processWebLinkFiles, process_weblink, hf]
      rw [ih]
      obtain ⟨so, sf, sl, sc, stt, sw, se⟩ := st
      simp [hf]

/-- Stats effect of `process_custom_object`: `objects_processed` counts a
parsed object file, `fields_processed` counts the well-formed field files,
and every malformed file of the directory contributes exactly one error while
processing continues. -/
theorem process_custom_object_stats (d : ObjectDir) (st : Stats)
    (rels : List Edge) :
    (process_custom_object d st rels).2.1 =
      { st with
        objects_processed := st.objects_processed + (if okObjFile d then 1 else 0),
        fields_processed := st.fields_processed + d.fieldFiles.countP okFile,
        errors := (((st.errors ++
          (match d.objectFile with
           | some (.error e) => ["Error processing " ++ d.name ++ ": " ++ e]
           | _ => [])) ++
          d.fieldFiles.flatMap (fun f =>
            match f.content with
            | .ok _ => []
            | .error e => ["Error processing field " ++ f.name ++ ": " ++ e])) ++
          d.listViewFiles.flatMap (fun f =>
            match f.content with
            | .ok _ => []
            | .error e => ["Error processing listview " ++ f.name ++ ": " ++ e])) ++
          d.webLinkFiles.flatMap (fun f =>
            match f.content with
            | .ok _ => []
            | .error e => ["Error processing weblink " ++ f.name ++ ": " ++ e]) } := by
  obtain ⟨dn, dof, dff, dlf, dwf⟩ := d
  have main : ∀ (st1 : Stats),
      (processWebLinkFiles dwf dn ("object_" ++ dn)
        (processListViewFiles dlf dn ("object_" ++ dn)
          (processFieldFiles dff dn ("object_" ++ dn) st1 rels).2.1
          (processFieldFiles dff dn ("object_" ++ dn) st1 rels).2.2).2.1
        (processListViewFiles dlf dn ("object_" ++ dn)
          (processFieldFiles dff dn ("object_" ++ dn) st1 rels).2.1
          (processFieldFiles dff dn ("object_" ++ dn) st1 rels).2.2).2.2).2.1 =
      { st1 with
        fields_processed := st1.fields_processed + dff.countP okFile,
        errors := ((st1.errors ++
          dff.flatMap (fun f =>
            match f.content with
            | .ok _ => []
            | .error e => ["Error processing field " ++ f.name ++ ": " ++ e])) ++
          dlf.flatMap (fun f =>
            match f.content with
            | .ok _ => []
            | .error e => ["Error processing listview " ++ f.name ++ ": " ++ e])) ++
          dwf.flatMap (fun f =>
            match f.content with
            | .ok _ => []
            | .error e => ["Error processing weblink " ++ f.name ++ ": " ++ e]) } := by
    intro st1
    rw [processWebLinkFiles_stats, processListViewFiles_stats,
      processFieldFiles_stats]
  match hof : dof with
  | some (.ok root) =>
    show (processWebLinkFiles _ _ _ _ _).2.1 = _
    rw [main { st with objects_processed := st.objects_processed + 1 }]
    obtain ⟨so, sf, sl, sc, stt, sw, se⟩ := st
    simp [okObjFile]
  | some (.error e) =>
    show (processWebLinkFiles _ _ _ _ _).2.1 = _
    rw [main { st with errors := st.errors ++ ["Error processing " ++ dn ++ ": " ++ e] }]
    obtain ⟨so, sf, sl, sc, stt, sw, se⟩ := st
    simp [okObjFile]
  | Option.none =>
    show (processWebLinkFiles _ _ _ _ _).2.1 = _
    rw [main st]
    obtain ⟨so, sf, sl, sc, stt, sw, se⟩ := st
    simp [okObjFile]

/-- The error-message list of a file loop has one entry per malformed file. -/
theorem flatMap_err_length (fs : List XFile) (mk : XFile → String → String) :
    (fs.flatMap (fun f =>
      match f.content with
      | .ok _ => []
      | .error e => [mk f e])).length = fs.countP (fun f => !okFile f) := by
  induction fs with
  | nil => rfl
  | cons f fs ih =>
    cases hf : f.content with
    | ok root => simp [List.flatMap_cons, hf, List.countP_cons, okFile, ih]
    | error e => simp [List.flatMap_cons, hf, List.countP_cons, okFile, ih]

/-- The object-file error list has one entry exactly when the object file is
present but malformed. -/
theorem obj_err_length (d : ObjectDir) :
    (match d.objectFile with
      | some (.error e) => ["Error processing " ++ d.name ++ ": " ++ e]
      | _ => []).length =
      (if badObjFile d then 1 else 0) := by
  obtain ⟨dn, dof, dff, dlf, dwf⟩ := d
  rcases dof with _ | x
  · rfl
  · rcases x with e | v
    · rfl
    · rfl

/-- Stats effect of the object loop of `convert_all_metadata`. -/
theorem runObjects_stats (ds : List ObjectDir) (st : Stats) (rels : List Edge) :
    (runObjects ds st rels).2.1.objects_processed =
        st.objects_processed + ds.countP okObjFile ∧
    (runObjects ds st rels).2.1.fields_processed =
        st.fields_processed + (ds.flatMap (·.fieldFiles)).countP okFile ∧
    (runObjects ds st rels).2.1.layouts_processed = st.layouts_processed ∧
    (runObjects ds st rels).2.1.classes_processed = st.classes_processed ∧
    (runObjects ds st rels).2.1.triggers_processed = st.triggers_processed ∧
    (runObjects ds st rels).2.1.workflows_processed = st.workflows_processed ∧
    (runObjects ds st rels).2.1.errors.length =
        st.errors.length + (ds.map objDirErrors).sum := by
  induction ds generalizing st rels with
  | nil => simp [runObjects]
  | cons d ds ih =>
    simp only [runObjects]
    rcases hrec0 : process_custom_object d st rels with ⟨od, st1, rels1⟩
    have e0 := process_custom_object_stats d st rels
    rw [hrec0] at e0
    simp only [Prod.fst, Prod.snd] at e0
    rcases hrec : runObjects ds st1 rels1 with ⟨rest, st2, rels2⟩
    obtain ⟨c1, c2, c3, c4, c5, c6, c7⟩ := ih st1 rels1
    rw [hrec] at c1 c2 c3 c4 c5 c6 c7
    simp only [Prod.fst, Prod.snd] at c1 c2 c3 c4 c5 c6 c7
    refine ⟨?_, ?_, ?_, ?_, ?_, ?_, ?_⟩
    · rw [c1, e0]
      simp only [List.countP_cons]
      by_cases hb : okObjFile d = true
      · simp [hb]
        omega
      · simp [hb]
    · rw [c2, e0]
      simp [List.countP_append]
      omega
    · rw [c3, e0]
    · rw [c4, e0]
    · rw [c5, e0]
    · rw [c6, e0]
    · rw [c7, e0]
      simp only [List.length_append, flatMap_err_length, obj_err_length]
      simp only [List.map_cons, List.sum_cons, objDirErrors]
      by_cases hb : badObjFile d = true
      · simp [hb]
        omega
      · simp [hb]
        omega

/-- Stats effect of the layout loop of `convert_all_metadata`: one count per
parsed layout, one error per malformed one, other counters untouched, and one
output record per parsed layout. -/
theorem runLayouts_stats (fs : List XFile) (st : Stats) (rels : List Edge) :
    (runLayouts fs st rels).2.1.objects_processed = st.objects_processed ∧
    (runLayouts fs st rels).2.1.fields_processed = st.fields_processed ∧
    (runLayouts fs st rels).2.1.layouts_processed =
        st.layouts_processed + fs.countP okFile ∧
    (runLayouts fs st rels).2.1.classes_processed = st.classes_processed ∧
    (runLayouts fs st rels).2.1.triggers_processed = st.triggers_processed ∧
    (runLayouts fs st rels).2.1.workflows_processed = st.workflows_processed ∧
    (runLayouts fs st rels).2.1.errors.length =
        st.errors.length + fs.countP (fun f => !okFile f) ∧
    (runLayouts fs st rels).1.length = fs.countP okFile := by
  induction fs generalizing st rels with
  | nil => simp [runLayouts]
  | cons f fs ih =>
    cases hf : f.content with
    | ok root =>
      have hok : okFile f = true := by simp [okFile, hf]
      simp only [runLayouts, process_layout, hf]
      rcases hrec : runLayouts fs
          { st with layouts_processed := st.layouts_processed + 1 }
          (rels ++ _create_layout_relationships (layoutId f.name)
            ((f.name.toList.takeWhile (· ≠ '-')).asString)
            (extractLayoutFields root) (extractRelatedLists root)) with
        ⟨rest, st2, rels2⟩
      obtain ⟨c1, c2, c3, c4, c5, c6, c7, c8⟩ := ih
        { st with layouts_processed := st.layouts_processed + 1 }
        (rels ++ _create_layout_relationships (layoutId f.name)
          ((f.name.toList.takeWhile (· ≠ '-')).asString)
          (extractLayoutFields root) (extractRelatedLists root))
      rw [hrec] at c1 c2 c3 c4 c5 c6 c7 c8
      simp only [Prod.fst, Prod.snd] at c1 c2 c3 c4 c5 c6 c7 c8
      simp only [hrec]
      refine ⟨c1, c2, ?_, c4, c5, c6, ?_, ?_⟩
      · rw [c3]
        simp [List.countP_cons, hok]
        omega
      · rw [c7]
        simp [List.countP_cons, hok]
      · simp only [List.length_cons, c8]
        simp [List.countP_cons, hok]
    | error e =>
      have hok : okFile f = false := by simp [okFile, hf]
      simp only [runLayouts, process_layout, hf]
      obtain ⟨c1, c2, c3, c4, c5, c6, c7, c8⟩ := ih
        { st with errors :=
            st.errors ++ ["Error processing layout " ++ f.name ++ ": " ++ e] }
        rels
      refine ⟨c1, c2, ?_, c4, c5, c6, ?_, ?_⟩
      · rw [c3]
        simp [List.countP_cons, hok]
      · rw [c7]
        simp [List.countP_cons, hok]
        omega
      · rw [c8]
        simp [List.countP_cons, hok]

/-- Stats effect of the class loop of `convert_all_metadata`: one count per
class whose companion meta file did not fail to parse, one error per failing
meta file, other counters untouched. -/
theorem runClasses_stats (fs : List CodeFile) (st : Stats) (rels : List Edge) :
    (runClasses fs st rels).2.1.objects_processed = st.objects_processed ∧
    (runClasses fs st rels).2.1.fields_processed = st.fields_processed ∧
    (runClasses fs st rels).2.1.layouts_processed = st.layouts_processed ∧
    (runClasses fs st rels).2.1.classes_processed =
        st.classes_processed + fs.countP okMeta ∧
    (runClasses fs st rels).2.1.triggers_processed = st.triggers_processed ∧
    (runClasses fs st rels).2.1.workflows_processed = st.workflows_processed ∧
    (runClasses fs st rels).2.1.errors.length =
        st.errors.length + fs.countP (fun f => !okMeta f) ∧
    (runClasses fs st rels).1.length = fs.countP okMeta := by
  induction fs generalizing st rels with
  | nil => simp [runClasses]
  | cons f fs ih =>
    obtain ⟨fn, fsrc, fmeta⟩ := f
    match hm : fmeta with
    | some (.error e) =>
      have hok : okMeta ⟨fn, fsrc, some (.error e)⟩ = false := by simp [okMeta]
      simp only [runClasses, process_apex_class]
      obtain ⟨c1, c2, c3, c4, c5, c6, c7, c8⟩ := ih
        { st with errors :=
            st.errors ++ ["Error processing class " ++ fn ++ ": " ++ e] }
        rels
      refine ⟨c1, c2, c3, ?_, c5, c6, ?_, ?_⟩
      · rw [c4]
        simp [List.countP_cons, hok]
      · rw [c7]
        simp [List.countP_cons, hok]
        omega
      · rw [c8]
        simp [List.countP_cons, hok]
    | some (.ok root) =>
      have hok : okMeta ⟨fn, fsrc, some (.ok root)⟩ = true := by simp [okMeta]
      simp only [runClasses, process_apex_class]
      rcases hrec : runClasses fs
          { st with classes_processed := st.classes_processed + 1 }
          (rels ++ _create_class_relationships ("class_" ++ fn)
            (extract_comprehensive_dependencies fsrc fn "ApexClass")) with
        ⟨rest, st2, rels2⟩
      obtain ⟨c1, c2, c3, c4, c5, c6, c7, c8⟩ := ih
        { st with classes_processed := st.classes_processed + 1 }
        (rels ++ _create_class_relationships ("class_" ++ fn)
          (extract_comprehensive_dependencies fsrc fn "ApexClass"))
      rw [hrec] at c1 c2 c3 c4 c5 c6 c7 c8
      simp only [Prod.fst, Prod.snd] at c1 c2 c3 c4 c5 c6 c7 c8
      simp only [hrec]
      refine ⟨c1, c2, c3, ?_, c5, c6, ?_, ?_⟩
      · rw [c4]
        simp [List.countP_cons, hok]
        omega
      · rw [c7]
        simp [List.countP_cons, hok]
      · simp only [List.length_cons, c8]
        simp [List.countP_cons, hok]
    | Option.none =>
      have hok : okMeta ⟨fn, fsrc, Option.none⟩ = true := by simp [okMeta]
      simp only [runClasses, process_apex_class]
      rcases hrec : runClasses fs
          { st with classes_processed := st.classes_processed + 1 }
          (rels ++ _create_class_relationships ("class_" ++ fn)
            (extract_comprehensive_dependencies fsrc fn "ApexClass")) with
        ⟨rest, st2, rels2⟩
      obtain ⟨c1, c2, c3, c4, c5, c6, c7, c8⟩ := ih
        { st with classes_processed := st.classes_processed + 1 }
        (rels ++ _create_class_relationships ("class_" ++ fn)
          (extract_comprehensive_dependencies fsrc fn "ApexClass"))
      rw [hrec] at c1 c2 c3 c4 c5 c6 c7 c8
      simp only [Prod.fst, Prod.snd] at c1 c2 c3 c4 c5 c6 c7 c8
      simp only [hrec]
      refine ⟨c1, c2, c3, ?_, c5, c6, ?_, ?_⟩
      · rw [c4]
        simp [List.countP_cons, hok]
        omega
      · rw [c7]
        simp [List.countP_cons, hok]
      · simp only [List.length_cons, c8]
        simp [List.countP_cons, hok]

/-- Stats effect of the trigger loop of `convert_all_metadata`. -/
theorem runTriggers_stats (fs : List CodeFile) (st : Stats) (rels : List Edge) :
    (runTriggers fs st rels).2.1.objects_processed = st.objects_processed ∧
    (runTriggers fs st rels).2.1.fields_processed = st.fields_processed ∧
    (runTriggers fs st rels).2.1.layouts_processed = st.layouts_processed ∧
    (runTriggers fs st rels).2.1.classes_processed = st.classes_processed ∧
    (runTriggers fs st rels).2.1.triggers_processed =
        st.triggers_processed + fs.countP okMeta ∧
    (runTriggers fs st rels).2.1.workflows_processed = st.workflows_processed ∧
    (runTriggers fs st rels).2.1.errors.length =
        st.errors.length + fs.countP (fun f => !okMeta f) ∧
    (runTriggers fs st rels).1.length = fs.countP okMeta := by
  induction fs generalizing st rels with
  | nil => simp [runTriggers]
  | cons f fs ih =>
    obtain ⟨fn, fsrc, fmeta⟩ := f
    match hm : fmeta with
    | some (.error e) =>
      have hok : okMeta ⟨fn, fsrc, some (.error e)⟩ = false := by simp [okMeta]
      simp only [runTriggers, process_trigger]
      obtain ⟨c1, c2, c3, c4, c5, c6, c7, c8⟩ := ih
        { st with errors :=
            st.errors ++ ["Error processing trigger " ++ fn ++ ": " ++ e] }
        rels
      refine ⟨c1, c2, c3, c4, ?_, c6, ?_, ?_⟩
      · rw [c5]
        simp [List.countP_cons, hok]
      · rw [c7]
        simp [List.countP_cons, hok]
        omega
      · rw [c8]
        simp [List.countP_cons, hok]
    | some (.ok root) =>
      have hok : okMeta ⟨fn, fsrc, some (.ok root)⟩ = true := by simp [okMeta]
      simp only [runTriggers, process_trigger]
      cases hobj : extract_trigger_object fsrc with
      | some o =>
        simp only [hobj]
        rcases hrec : runTriggers fs
            { st with triggers_processed := st.triggers_processed + 1 }
            ((rels ++ [⟨"object_" ++ o, "trigger_" ++ fn, "HAS_TRIGGER",
                some ("Trigger events: " ++
                  String.intercalate ", " (extract_trigger_events fsrc))⟩]) ++
              _create_trigger_relationships ("trigger_" ++ fn)
                (extract_comprehensive_dependencies fsrc fn "ApexTrigger")
                (some o)) with ⟨rest, st2, rels2⟩
        obtain ⟨c1, c2, c3, c4, c5, c6, c7, c8⟩ := ih
          { st with triggers_processed := st.triggers_processed + 1 }
          ((rels ++ [⟨"object_" ++ o, "trigger_" ++ fn, "HAS_TRIGGER",
              some ("Trigger events: " ++
                String.intercalate ", " (extract_trigger_events fsrc))⟩]) ++
            _create_trigger_relationships ("trigger_" ++ fn)
              (extract_comprehensive_dependencies fsrc fn "ApexTrigger")
              (some o))
        rw [hrec] at c1 c2 c3 c4 c5 c6 c7 c8
        simp only [Prod.fst, Prod.snd] at c1 c2 c3 c4 c5 c6 c7 c8
        simp only [hrec]
        refine ⟨c1, c2, c3, c4, ?_, c6, ?_, ?_⟩
        · rw [c5]
          simp [List.countP_cons, hok]
          omega
        · rw [c7]
          simp [List.countP_cons, hok]
        · simp only [List.length_cons, c8]
          simp [List.countP_cons, hok]
      | none =>
        simp only [hobj]
        rcases hrec : runTriggers fs
            { st with triggers_processed := st.triggers_processed + 1 }
            (rels ++ _create_trigger_relationships ("trigger_" ++ fn)
              (extract_comprehensive_dependencies fsrc fn "ApexTrigger")
              Option.none) with ⟨rest, st2, rels2⟩
        obtain ⟨c1, c2, c3, c4, c5, c6, c7, c8⟩ := ih
          { st with triggers_processed := st.triggers_processed + 1 }
          (rels ++ _create_trigger_relationships ("trigger_" ++ fn)
            (extract_comprehensive_dependencies fsrc fn "ApexTrigger")
            Option.none)
        rw [hrec] at c1 c2 c3 c4 c5 c6 c7 c8
        simp only [Prod.fst, Prod.snd] at c1 c2 c3 c4 c5 c6 c7 c8
        simp only [hrec]
        refine ⟨c1, c2, c3, c4, ?_, c6, ?_, ?_⟩
        · rw [c5]
          simp [List.countP_cons, hok]
          omega
        · rw [c7]
          simp [List.countP_cons, hok]
        · simp only [List.length_cons, c8]
          simp [List.countP_cons, hok]
    | Option.none =>
      have hok : okMeta ⟨fn, fsrc, Option.none⟩ = true := by simp [okMeta]
      simp only [runTriggers, process_trigger]
      cases hobj : extract_trigger_object fsrc with
      | some o =>
        simp only [hobj]
        rcases hrec : runTriggers fs
            { st with triggers_processed := st.triggers_processed + 1 }
            ((rels ++ [⟨"object_" ++ o, "trigger_" ++ fn, "HAS_TRIGGER",
                some ("Trigger events: " ++
                  String.intercalate ", " (extract_trigger_events fsrc))⟩]) ++
              _create_trigger_relationships ("trigger_" ++ fn)
                (extract_comprehensive_dependencies fsrc fn "ApexTrigger")
                (some o)) with ⟨rest, st2, rels2⟩
        obtain ⟨c1, c2, c3, c4, c5, c6, c7, c8⟩ := ih
          { st with triggers_processed := st.triggers_processed + 1 }
          ((rels ++ [⟨"object_" ++ o, "trigger_" ++ fn, "HAS_TRIGGER",
              some ("Trigger events: " ++
                String.intercalate ", " (extract_trigger_events fsrc))⟩]) ++
            _create_trigger_relationships ("trigger_" ++ fn)
              (extract_comprehensive_dependencies fsrc fn "ApexTrigger")
              (some o))
        rw [hrec] at c1 c2 c3 c4 c5 c6 c7 c8
        simp only [Prod.fst, Prod.snd] at c1 c2 c3 c4 c5 c6 c7 c8
        simp only [hrec]
        refine ⟨c1, c2, c3, c4, ?_, c6, ?_, ?_⟩
        · rw [c5]
          simp [List.countP_cons, hok]
          omega
        · rw [c7]
          simp [List.countP_cons, hok]
        · simp only [List.length_cons, c8]
          simp [List.countP_cons, hok]
      | none =>
        simp only [hobj]
        rcases hrec : runTriggers fs
            { st with triggers_processed := st.triggers_processed + 1 }
            (rels ++ _create_trigger_relationships ("trigger_" ++ fn)
              (extract_comprehensive_dependencies fsrc fn "ApexTrigger")
              Option.none) with ⟨rest, st2, rels2⟩
        obtain ⟨c1, c2, c3, c4, c5, c6, c7, c8⟩ := ih
          { st with triggers_processed := st.triggers_processed + 1 }
          (rels ++ _create_trigger_relationships ("trigger_" ++ fn)
            (extract_comprehensive_dependencies fsrc fn "ApexTrigger")
            Option.none)
        rw [hrec] at c1 c2 c3 c4 c5 c6 c7 c8
        simp only [Prod.fst, Prod.snd] at c1 c2 c3 c4 c5 c6 c7 c8
        simp only [hrec]
        refine ⟨c1, c2, c3, c4, ?_, c6, ?_, ?_⟩
        · rw [c5]
          simp [List.countP_cons, hok]
          omega
        · rw [c7]
          simp [List.countP_cons, hok]
        · simp only [List.length_cons, c8]
          simp [List.countP_cons, hok]

/-- Stats effect of the workflow loop of `convert_all_metadata`. -/
theorem runWorkflows_stats (fs : List XFile) (st : Stats) (rels : List Edge) :
    (runWorkflows fs st rels).2.1.objects_processed = st.objects_processed ∧
    (runWorkflows fs st rels).2.1.fields_processed = st.fields_processed ∧
    (runWorkflows fs st rels).2.1.layouts_processed = st.layouts_processed ∧
    (runWorkflows fs st rels).2.1.classes_processed = st.classes_processed ∧
    (runWorkflows fs st rels).2.1.triggers_processed = st.triggers_processed ∧
    (runWorkflows fs st rels).2.1.workflows_processed =
        st.workflows_processed + fs.countP okFile ∧
    (runWorkflows fs st rels).2.1.errors.length =
        st.errors.length + fs.countP (fun f => !okFile f) ∧
    (runWorkflows fs st rels).1.length = fs.countP okFile := by
  induction fs generalizing st rels with
  | nil => simp [runWorkflows]
  | cons f fs ih =>
    cases hf : f.content with
    | ok root =>
      have hok : okFile f = true := by simp [okFile, hf]
      simp only [runWorkflows, process_workflow, hf]
      rcases hrec : runWorkflows fs
          { st with workflows_processed := st.workflows_processed + 1 }
          (rels ++ [⟨"object_" ++ f.name, "workflow_" ++ f.name, "HAS_WORKFLOW",
            Option.none⟩]) with ⟨rest, st2, rels2⟩
      obtain ⟨c1, c2, c3, c4, c5, c6, c7, c8⟩ := ih
        { st with workflows_processed := st.workflows_processed + 1 }
        (rels ++ [⟨"object_" ++ f.name, "workflow_" ++ f.name, "HAS_WORKFLOW",
          Option.none⟩])
      rw [hrec] at c1 c2 c3 c4 c5 c6 c7 c8
      simp only [Prod.fst, Prod.snd] at c1 c2 c3 c4 c5 c6 c7 c8
      simp only [hrec]
      refine ⟨c1, c2, c3, c4, c5, ?_, ?_, ?_⟩
      · rw [c6]
        simp [List.countP_cons, hok]
        omega
      · rw [c7]
        simp [List.countP_cons, hok]
      · simp only [List.length_cons, c8]
        simp [List.countP_cons, hok]
    | error e =>
      have hok : okFile f = false := by simp [okFile, hf]
      simp only [runWorkflows, process_workflow, hf]
      obtain ⟨c1, c2, c3, c4, c5, c6, c7, c8⟩ := ih
        { st with errors :=
            st.errors ++ ["Error processing workflow " ++ f.name ++ ": " ++ e] }
        rels
      refine ⟨c1, c2, c3, c4, c5, ?_, ?_, ?_⟩
      · rw [c6]
        simp [List.countP_cons, hok]
      · rw [c7]
        simp [List.countP_cons, hok]
        omega
      · rw [c8]
        simp [List.countP_cons, hok]

/-- The object loop returns one record per directory, malformed or not. -/
theorem runObjects_length (ds : List ObjectDir) (st : Stats) (rels : List Edge) :
    (runObjects ds st rels).1.length = ds.length := by
  induction ds generalizing st rels with
  | nil => simp [runObjects]
  | cons d ds ih =>
    simp only [runObjects]
    rcases hrec0 : process_custom_object d st rels with ⟨od, st1, rels1⟩
    rcases hrec : runObjects ds st1 rels1 with ⟨rest, st2, rels2⟩
    have := ih st1 rels1
    rw [hrec] at this
    simp only [Prod.fst, Prod.snd] at this
    simp [this]

/-- C7 (confirmed): over every input tree, each malformed definition file
(object, field, list view, web link, layout, class meta, trigger meta or
workflow) contributes exactly one recorded error, its counter counts only the
well-formed files, and processing of all sibling files continues: the run
completes with one output record per surviving component. -/
theorem C7_malformed_files_skipped (t : SourceTree) :
    (convert_all_metadata t).2.1.objects_processed = t.objects.countP okObjFile ∧
    (convert_all_metadata t).2.1.fields_processed =
        (t.objects.flatMap (·.fieldFiles)).countP okFile ∧
    (convert_all_metadata t).2.1.layouts_processed = t.layouts.countP okFile ∧
    (convert_all_metadata t).2.1.classes_processed = t.classes.countP okMeta ∧
    (convert_all_metadata t).2.1.triggers_processed = t.triggers.countP okMeta ∧
    (convert_all_metadata t).2.1.workflows_processed = t.workflows.countP okFile ∧
    (convert_all_metadata t).2.1.errors.length = treeErrors t ∧
    (convert_all_metadata t).1.objects.length = t.objects.length ∧
    (convert_all_metadata t).1.layouts.length = t.layouts.countP okFile ∧
    (convert_all_metadata t).1.classes.length = t.classes.countP okMeta ∧
    (convert_all_metadata t).1.triggers.length = t.triggers.countP okMeta ∧
    (convert_all_metadata t).1.workflows.length = t.workflows.countP okFile := by
  unfold convert_all_metadata
  rcases h1 : runObjects t.objects initStats [] with ⟨objs, st1, rels1⟩
  rcases h2 : runLayouts t.layouts st1 rels1 with ⟨lays, st2, rels2⟩
  rcases h3 : runClasses t.classes st2 rels2 with ⟨clss, st3, rels3⟩
  rcases h4 : runTriggers t.triggers st3 rels3 with ⟨trgs, st4, rels4⟩
  rcases h5 : runWorkflows t.workflows st4 rels4 with ⟨wfs, st5, rels5⟩
  have e1 := runObjects_stats t.objects initStats []
  have e1l := runObjects_length t.objects initStats []
  have e2 := runLayouts_stats t.layouts st1 rels1
  have e3 := runClasses_stats t.classes st2 rels2
  have e4 := runTriggers_stats t.triggers st3 rels3
  have e5 := runWorkflows_stats t.workflows st4 rels4
  rw [h1] at e1 e1l
  rw [h2] at e2
  rw [h3] at e3
  rw [h4] at e4
  rw [h5] at e5
  simp only [Prod.fst, Prod.snd] at e1 e1l e2 e3 e4 e5
  obtain ⟨a1, a2, a3, a4, a5, a6, a7⟩ := e1
  obtain ⟨b1, b2, b3, b4, b5, b6, b7, b8⟩ := e2
  obtain ⟨c1, c2, c3, c4, c5, c6, c7, c8⟩ := e3
  obtain ⟨d1, d2, d3, d4, d5, d6, d7, d8⟩ := e4
  obtain ⟨f1, f2, f3, f4, f5, f6, f7, f8⟩ := e5
  simp only [h1, h2, h3, h4, h5]
  simp only [initStats] at a1 a2 a3 a4 a5 a6 a7
  refine ⟨?_, ?_, ?_, ?_, ?_, ?_, ?_, e1l, b8, c8, d8, f8⟩
  · rw [f1, d1, c1, b1, a1]
    simp
  · rw [f2, d2, c2, b2, a2]
    simp
  · rw [f3, d3, c3, b3, a3]
    simp
  · rw [f4, d4, c4, b4, a4]
    simp
  · rw [f5, d5, c5, b5, a5]
    simp
  · rw [f6, d6, c6, b6, a6]
    simp
  · rw [f7, d7, c7, b7, a7]
    unfold treeErrors
    simp
